import Mathlib

/-!
# CPU-boost framework: shallow embedding and verified properties

Two drivers are embedded, each in its own namespace:

* `CpuBoost`   : `drivers/cpufreq/cpu_boost.c` together with the accessors of
  `drivers/cpufreq/retain_cpu_policy.c` it calls (per-core boost);
* `Framework`  : `drivers/cpufreq/cpu-boost_framework.c` (CPU0 only, bounded retry).

Machine integers (`unsigned int`) are natural numbers; the one multiplication
that can overflow is reduced modulo `2^32`.  Module-level variables become the
fields of a `State` record; every C function becomes a function on `State`.
A `NULL` dereference is the result `none`.
-/

/-- Array store `a[i] = v`. -/
def setAt {α : Type} (a : Nat → α) (i : Nat) (v : α) : Nat → α :=
  fun j => if j = i then v else a j

/-- Unsigned 32-bit subtraction `a - b` (wraps below zero). -/
def sub32 (a b : Nat) : Nat :=
  if b ≤ a then a - b else a + 4294967296 - b

namespace CpuBoost

/-- The `min`, `max` and `governor` members of `struct cpufreq_user_policy`
(the governor pointer is a number, `0` being `NULL`). -/
structure cpufreq_user_policy where
  min : Nat
  max : Nat
  governor : Nat
deriving DecidableEq

/-- Module state of `cpu_boost.c`, the `user_policy` array of
`retain_cpu_policy.c`, and the kernel objects the driver touches. -/
structure State where
  /-- `static unsigned int enabled` -/
  enabled : Nat
  /-- `static unsigned int boost_duration_ms` -/
  boost_duration_ms : Nat
  /-- `static unsigned int boost_freq_khz` -/
  boost_freq_khz : Nat
  /-- `static unsigned int boost_override` -/
  boost_override : Nat
  /-- `static unsigned int cpu_boosted` -/
  cpu_boosted : Nat
  /-- `static unsigned int init_done` -/
  init_done : Nat
  /-- `struct cpufreq_user_policy orig_policy[CONFIG_NR_CPUS]` -/
  orig_policy : Nat → cpufreq_user_policy
  /-- `struct cpufreq_user_policy user_policy[CONFIG_NR_CPUS]` of `retain_cpu_policy.c` -/
  user_policy : Nat → cpufreq_user_policy
  /-- `cpufreq_cpu_get(cpu)->user_policy` for each core, `none` when the lookup gives `NULL` -/
  policy : Nat → Option cpufreq_user_policy
  /-- the cores visited by `for_each_possible_cpu`, in iteration order -/
  cpu_possible : List Nat
  /-- the cores visited by `for_each_online_cpu`, in iteration order -/
  cpu_online : List Nat
  /-- `static struct delayed_work boost_work`: `some d` when queued with delay `d` ms -/
  boost_work : Option Nat
  /-- `static DECLARE_COMPLETION(cpu_boost_no_timeout)`: its `done` counter -/
  cpu_boost_no_timeout : Nat
  /-- the work function is blocked inside `wait_for_completion` -/
  waiting : Bool

/-- Modelled from the spec: the kernel's `schedule_delayed_work` is not among the
sources; "schedule execution of the deferred step" queues `boost_work` with the
given delay, and queuing an already queued work item changes nothing. -/
def schedule_delayed_work (s : State) (delay : Nat) : State :=
  match s.boost_work with
  | some _ => s
  | none => { s with boost_work := some delay }

/-- Modelled from the spec: the kernel's `cancel_delayed_work` is not among the
sources; "cancel its pending expiry task" removes the queued `boost_work`. -/
def cancel_delayed_work (s : State) : State :=
  { s with boost_work := none }

/-- Modelled from the spec: the kernel's `init_completion` is not among the
sources; "(re)arms a wait/signal primitive" resets the completion to not released. -/
def init_completion (s : State) : State :=
  { s with cpu_boost_no_timeout := 0 }

/-- Modelled from the spec: the kernel's `complete` is not among the sources;
"releases the wait/signal primitive" records one more release. -/
def complete (s : State) : State :=
  { s with cpu_boost_no_timeout := s.cpu_boost_no_timeout + 1 }

/-- Modelled from the spec: the kernel's `wait_for_completion` is not among the
sources; "block the deferred step on the wait/signal primitive until
`signal_unboost()` releases it": a release already recorded is consumed and the
caller goes on (`some`), otherwise the caller blocks (`none`). -/
def wait_for_completion (s : State) : Option State :=
  if s.cpu_boost_no_timeout ≠ 0 then
    some { s with cpu_boost_no_timeout := s.cpu_boost_no_timeout - 1 }
  else none

/-- Modelled from the spec: the kernel's `msecs_to_jiffies` is not among the
sources; delays stay in milliseconds. -/
def msecs_to_jiffies (ms : Nat) : Nat := ms

/-- Modelled from the spec: the kernel's `cpufreq_cpu_get` is not among the
sources; the Policy Store Adapter's `get_policy(core)` gives the core's policy
or is unavailable. -/
def cpufreq_cpu_get (s : State) (cpu : Nat) : Option cpufreq_user_policy :=
  s.policy cpu

/-- `retained_cpu_policy` of `retain_cpu_policy.c`. -/
def retained_cpu_policy (s : State) (cpu : Nat) : Bool :=
  decide ((s.user_policy cpu).min ≠ 0) && decide ((s.user_policy cpu).max ≠ 0)
    && decide ((s.user_policy cpu).governor ≠ 0)

/-- `get_retained_min_cpu_freq` of `retain_cpu_policy.c`. -/
def get_retained_min_cpu_freq (s : State) (cpu : Nat) : Nat :=
  (s.user_policy cpu).min

/-- `get_retained_max_cpu_freq` of `retain_cpu_policy.c`. -/
def get_retained_max_cpu_freq (s : State) (cpu : Nat) : Nat :=
  (s.user_policy cpu).max

/-- `cpu_boost_timeout` of `cpu_boost.c`. -/
def cpu_boost_timeout (s : State) (freq_mhz duration_ms : Nat) : State :=
  if s.init_done ≠ 0 ∧ s.enabled ≠ 0 then
    let s1 :=
      if s.cpu_boosted ≠ 0 then
        cancel_delayed_work { s with cpu_boosted := 0, boost_override := 1 }
      else s
    schedule_delayed_work
      { s1 with boost_freq_khz := (freq_mhz * 1000) % 4294967296,
                boost_duration_ms := duration_ms } 0
  else s

/-- `cpu_boost` of `cpu_boost.c`. -/
def cpu_boost (s : State) (freq_mhz : Nat) : State :=
  if s.init_done ≠ 0 ∧ s.enabled ≠ 0 then
    let s1 :=
      if s.cpu_boosted ≠ 0 then
        cancel_delayed_work { s with cpu_boosted := 0, boost_override := 1 }
      else s
    let s2 := init_completion s1
    schedule_delayed_work { s2 with boost_freq_khz := (freq_mhz * 1000) % 4294967296 } 0
  else s

/-- `cpu_unboost` of `cpu_boost.c`. -/
def cpu_unboost (s : State) : State :=
  if s.init_done ≠ 0 ∧ s.enabled ≠ 0 then complete s else s

/-- `cpu_boost_shutdown` of `cpu_boost.c`. -/
def cpu_boost_shutdown (s : State) : State :=
  if s.init_done ≠ 0 then { s with enabled := 0 } else s

/-- `cpu_boost_startup` of `cpu_boost.c`. -/
def cpu_boost_startup (s : State) : State :=
  if s.init_done ≠ 0 then { s with enabled := 1 } else s

/-- Body of the `for_each_possible_cpu` loop of `save_original_freq_limits`, for
the cores still to visit. -/
def save_original_freq_limits_loop : List Nat → State → Option State
  | [], s => some s
  | cpu :: rest, s =>
    if retained_cpu_policy s cpu then
      save_original_freq_limits_loop rest
        { s with orig_policy := (setAt s.orig_policy cpu
            ⟨get_retained_min_cpu_freq s cpu, get_retained_max_cpu_freq s cpu,
              (s.orig_policy cpu).governor⟩) }
    else
      match cpufreq_cpu_get s 0 with
      | none => none
      | some policy =>
        save_original_freq_limits_loop rest
          { s with orig_policy := (setAt s.orig_policy cpu
              ⟨policy.min, policy.max, (s.orig_policy cpu).governor⟩) }

/-- `save_original_freq_limits` of `cpu_boost.c`. -/
def save_original_freq_limits (s : State) : Option State :=
  save_original_freq_limits_loop s.cpu_possible s

/-- `set_new_minfreq` of `cpu_boost.c`: the floor is written into the policy of
`cpu`, or into the policy of CPU0 when `cpu` has none; with no policy for CPU0
either, the write dereferences `NULL`.  `cpufreq_update_policy` makes the written
floor take effect and `cpufreq_cpu_put` releases the policy; neither changes the
stored `user_policy`. -/
def set_new_minfreq (s : State) (minfreq cpu : Nat) : Option State :=
  match cpufreq_cpu_get s cpu with
  | some policy =>
    some { s with policy := setAt s.policy cpu (some ⟨minfreq, policy.max, policy.governor⟩) }
  | none =>
    match cpufreq_cpu_get s 0 with
    | some policy =>
      some { s with policy := setAt s.policy 0 (some ⟨minfreq, policy.max, policy.governor⟩) }
    | none => none

/-- The `for_each_possible_cpu` loop of `restore_original_minfreq`. -/
def restore_original_minfreq_loop : List Nat → State → Option State
  | [], s => some s
  | cpu :: rest, s =>
    (set_new_minfreq s (s.orig_policy cpu).min cpu).bind (restore_original_minfreq_loop rest)

/-- `restore_original_minfreq` of `cpu_boost.c`. -/
def restore_original_minfreq (s : State) : Option State :=
  (restore_original_minfreq_loop s.cpu_possible s).map
    (fun s1 => { s1 with boost_duration_ms := 0, cpu_boosted := 0, boost_override := 0 })

/-- How the `for_each_online_cpu` loop of `cpu_boost_main` ends: it runs to its
end, or the function returns from inside it. -/
inductive LoopExit where
  | finished : State → LoopExit
  | returned : State → LoopExit

/-- The `for_each_online_cpu` loop of `cpu_boost_main`, for the cores still to visit. -/
def boost_online_cpus : List Nat → State → Option LoopExit
  | [], s => some (LoopExit.finished s)
  | cpu :: rest, s =>
    if s.boost_freq_khz ≠ 0 then
      if s.boost_freq_khz ≥ (s.orig_policy cpu).max then
        if (s.orig_policy cpu).max ≤ 486000 then
          some (LoopExit.returned { s with boost_duration_ms := 0, boost_override := 0 })
        else
          (set_new_minfreq s (sub32 (s.orig_policy cpu).max 108000) cpu).bind
            (boost_online_cpus rest)
      else
        (set_new_minfreq s s.boost_freq_khz cpu).bind (boost_online_cpus rest)
    else boost_online_cpus rest s

/-- The statements of `cpu_boost_main` after the loop: mark the cycle active, then
either queue the expiry after `wait_ms = boost_duration_ms`, or wait for the
completion and queue the expiry with `wait_ms = 0` once it is released; when the
wait blocks, the step stops there with `waiting` set. -/
def cpu_boost_main_tail (s : State) : State :=
  let s1 := { s with cpu_boosted := 1 }
  if s1.boost_duration_ms ≠ 0 then
    schedule_delayed_work s1 (msecs_to_jiffies s1.boost_duration_ms)
  else
    match wait_for_completion s1 with
    | some s2 => schedule_delayed_work s2 (msecs_to_jiffies 0)
    | none => { s1 with waiting := true }

/-- The part of `cpu_boost_main` that runs once a blocked `wait_for_completion`
is released: the wait consumes the release and the expiry is queued with
`wait_ms = 0`; nothing happens while no step is blocked or no release is recorded. -/
def cpu_boost_main_resume (s : State) : State :=
  if s.waiting = true then
    match wait_for_completion s with
    | some s2 => schedule_delayed_work { s2 with waiting := false } (msecs_to_jiffies 0)
    | none => s
  else s

/-- What `cpu_boost_main` does once the loop over the online cores has ended: nothing
more after the `return` inside the loop, its last statements otherwise. -/
def after_loop : LoopExit → State
  | LoopExit.returned s => s
  | LoopExit.finished s => cpu_boost_main_tail s

/-- The first statements of the apply branch of `cpu_boost_main`:
`if (!boost_override) save_original_freq_limits();`. -/
def snapshot_unless_override (s : State) : Option State :=
  if s.boost_override = 0 then save_original_freq_limits s else some s

/-- `cpu_boost_main` of `cpu_boost.c`, up to its return or to the point where it
blocks in `wait_for_completion`. -/
def cpu_boost_main (s : State) : Option State :=
  if s.cpu_boosted ≠ 0 then restore_original_minfreq s
  else
    (snapshot_unless_override s).bind fun s1 =>
      (boost_online_cpus s1.cpu_online s1).map after_loop

/-- The worker thread takes the queued `boost_work` off the queue and runs `cpu_boost_main`;
nothing runs when no work is queued. -/
def run_boost_work (s : State) : Option State :=
  match s.boost_work with
  | none => some s
  | some _ => cpu_boost_main { s with boost_work := none }

/-- The floor (`user_policy.min`) currently set for a core. -/
def floor (s : State) (cpu : Nat) : Option Nat :=
  (s.policy cpu).map (fun p => p.min)

/-- The ceiling (`user_policy.max`) currently set for a core. -/
def ceiling (s : State) (cpu : Nat) : Option Nat :=
  (s.policy cpu).map (fun p => p.max)

end CpuBoost

/-- A call of the public API: `cpu_boost_timeout(freq, duration_ms)`, `cpu_boost(freq)`
or `cpu_unboost()`. -/
inductive Call where
  | timeout (freq duration_ms : Nat) : Call
  | boost (freq : Nat) : Call
  | unboost : Call
deriving DecidableEq

/-- A step of the sequential model: an API call, the worker thread running the
queued `boost_work`, or the blocked work function being released. -/
inductive Step where
  | api (c : Call) : Step
  | work : Step
  | resume : Step
deriving DecidableEq

namespace CpuBoost

/-- One API call on the state of `cpu_boost.c`. -/
def call (s : State) : Call → State
  | Call.timeout freq duration_ms => cpu_boost_timeout s freq duration_ms
  | Call.boost freq => cpu_boost s freq
  | Call.unboost => cpu_unboost s

/-- A finite sequence of API calls, in order. -/
def calls (s : State) (cs : List Call) : State :=
  cs.foldl call s

/-- One step of the sequential model of `cpu_boost.c`. -/
def step (s : State) : Step → Option State
  | Step.api c => some (call s c)
  | Step.work => run_boost_work s
  | Step.resume => some (cpu_boost_main_resume s)

/-- A finite run of the sequential model. -/
def run : State → List Step → Option State
  | s, [] => some s
  | s, st :: rest => (step s st).bind (fun s1 => run s1 rest)

/-- The test of the abort branch in the loop body of `cpu_boost_main`: the
requested floor reaches the snapshot ceiling and that ceiling is at most 486000. -/
def aborts (s : State) (cpu : Nat) : Bool :=
  decide (s.boost_freq_khz ≥ (s.orig_policy cpu).max ∧ (s.orig_policy cpu).max ≤ 486000)

/-- The value of `minfreq` the loop body of `cpu_boost_main` passes to
`set_new_minfreq` when it does not abort. -/
def new_minfreq (s : State) (cpu : Nat) : Nat :=
  if s.boost_freq_khz ≥ (s.orig_policy cpu).max then sub32 (s.orig_policy cpu).max 108000
  else s.boost_freq_khz

/-- The policy store after `set_new_minfreq (v c) c` has run for every core `c` of
`l`, all of which have a policy. -/
def written (v : Nat → Nat) (l : List Nat) (pol : Nat → Option cpufreq_user_policy) :
    Nat → Option cpufreq_user_policy :=
  fun c => if c ∈ l then (pol c).map (fun p => ⟨v c, p.max, p.governor⟩) else pol c

/-- The `min` and `max` that `save_original_freq_limits` records for a core: the
retained ones when the core has a retained policy, those of CPU0 otherwise. -/
def captured (s : State) (cpu : Nat) : Option (Nat × Nat) :=
  if retained_cpu_policy s cpu then
    some (get_retained_min_cpu_freq s cpu, get_retained_max_cpu_freq s cpu)
  else (cpufreq_cpu_get s 0).map (fun p => (p.min, p.max))

/-- The array `orig_policy` after `save_original_freq_limits` has visited the cores
of `l`: the visited entries hold the captured `min` and `max`. -/
def snapshot (s : State) (l : List Nat) : Nat → cpufreq_user_policy :=
  fun c =>
    if c ∈ l then
      match captured s c with
      | some mm => ⟨mm.1, mm.2, (s.orig_policy c).governor⟩
      | none => s.orig_policy c
    else s.orig_policy c

end CpuBoost

namespace Framework

/-- The `user_policy.min` and `user_policy.max` members of CPU0's `struct cpufreq_policy`. -/
structure cpufreq_policy where
  min : Nat
  max : Nat
deriving DecidableEq

/-- Module state of `cpu-boost_framework.c` and the kernel objects it touches. -/
structure State where
  /-- `static unsigned int boost_duration_ms` -/
  boost_duration_ms : Nat
  /-- `static unsigned int boost_freq` -/
  boost_freq : Nat
  /-- `static unsigned int boost_override` -/
  boost_override : Nat
  /-- `static unsigned int cpu_boosted` -/
  cpu_boosted : Nat
  /-- `static unsigned int enable` -/
  enable : Nat
  /-- `static unsigned int init_done` -/
  init_done : Nat
  /-- `static unsigned int minfreq_orig` -/
  minfreq_orig : Nat
  /-- `static unsigned int minfreq_inf` -/
  minfreq_inf : Nat
  /-- `static unsigned int input_boost_freq` (module parameter) -/
  input_boost_freq : Nat
  /-- `static unsigned int input_boost_ms` (module parameter) -/
  input_boost_ms : Nat
  /-- the `user_policy` of CPU0's policy object -/
  user_policy : cpufreq_policy
  /-- whether the `n`-th call of `cpufreq_cpu_get(0)` (counted from 0) yields the policy -/
  policy_ready : Nat → Bool
  /-- the number of calls of `cpufreq_cpu_get(0)` made so far -/
  lookups : Nat
  /-- `static struct delayed_work boost_work`: `some d` when queued with delay `d` ms -/
  boost_work : Option Nat
  /-- `static DECLARE_COMPLETION(cpu_boost_no_timeout)`: its `done` counter -/
  cpu_boost_no_timeout : Nat
  /-- the work function is blocked inside `wait_for_completion` -/
  waiting : Bool

/-- Modelled from the spec: the kernel's `schedule_delayed_work` is not among the
sources; "schedule execution of the deferred step" queues `boost_work` with the
given delay, and queuing an already queued work item changes nothing. -/
def schedule_delayed_work (s : State) (delay : Nat) : State :=
  match s.boost_work with
  | some _ => s
  | none => { s with boost_work := some delay }

/-- Modelled from the spec: the kernel's `cancel_delayed_work` is not among the
sources; "cancel its pending expiry task" removes the queued `boost_work`. -/
def cancel_delayed_work (s : State) : State :=
  { s with boost_work := none }

/-- Modelled from the spec: the kernel's `init_completion` is not among the
sources; "(re)arms a wait/signal primitive" resets the completion to not released. -/
def init_completion (s : State) : State :=
  { s with cpu_boost_no_timeout := 0 }

/-- Modelled from the spec: the kernel's `complete` is not among the sources;
"releases the wait/signal primitive" records one more release. -/
def complete (s : State) : State :=
  { s with cpu_boost_no_timeout := s.cpu_boost_no_timeout + 1 }

/-- Modelled from the spec: the kernel's `wait_for_completion` is not among the
sources; "block the deferred step on the wait/signal primitive until
`signal_unboost()` releases it": a release already recorded is consumed and the
caller goes on (`some`), otherwise the caller blocks (`none`). -/
def wait_for_completion (s : State) : Option State :=
  if s.cpu_boost_no_timeout ≠ 0 then
    some { s with cpu_boost_no_timeout := s.cpu_boost_no_timeout - 1 }
  else none

/-- Modelled from the spec: the kernel's `msecs_to_jiffies` is not among the
sources; delays stay in milliseconds. -/
def msecs_to_jiffies (ms : Nat) : Nat := ms

/-- Modelled from the spec: the kernel's `cpufreq_cpu_get` is not among the
sources; the Policy Store Adapter's `get_policy(core)` gives CPU0's policy or is
unavailable at this attempt. -/
def cpufreq_cpu_get (s : State) : Option cpufreq_policy :=
  if s.policy_ready s.lookups = true then some s.user_policy else none

/-- The state once one more call of `cpufreq_cpu_get(0)` has been made. -/
def looked_up (s : State) : State :=
  { s with lookups := s.lookups + 1 }

/-- `cpu_boost_timeout` of `cpu-boost_framework.c`. -/
def cpu_boost_timeout (s : State) (freq duration_ms : Nat) : State :=
  if s.init_done ≠ 0 ∧ s.enable ≠ 0 then
    let s1 :=
      if s.cpu_boosted ≠ 0 then
        cancel_delayed_work { s with cpu_boosted := 0, boost_override := 1 }
      else s
    schedule_delayed_work { s1 with boost_freq := freq, boost_duration_ms := duration_ms } 0
  else s

/-- `cpu_boost` of `cpu-boost_framework.c`. -/
def cpu_boost (s : State) (freq : Nat) : State :=
  if s.init_done ≠ 0 ∧ s.enable ≠ 0 then
    let s1 :=
      if s.cpu_boosted ≠ 0 then
        cancel_delayed_work { s with cpu_boosted := 0, boost_override := 1 }
      else s
    let s2 := init_completion s1
    schedule_delayed_work { s2 with boost_freq := freq, minfreq_inf := freq } 0
  else s

/-- `cpu_unboost` of `cpu-boost_framework.c`. -/
def cpu_unboost (s : State) : State :=
  if s.init_done ≠ 0 ∧ s.enable ≠ 0 then { complete s with minfreq_inf := 0 } else s

/-- `cpu_boost_shutdown` of `cpu-boost_framework.c`. -/
def cpu_boost_shutdown (s : State) : State :=
  if s.init_done ≠ 0 then { s with enable := 0 } else s

/-- `cpu_boost_startup` of `cpu-boost_framework.c`. -/
def cpu_boost_startup (s : State) : State :=
  if s.init_done ≠ 0 then { s with enable := 1 } else s

/-- `save_orig_minfreq` of `cpu-boost_framework.c` from the label `retry`, with the
current value of `retry_cnt`. -/
def save_orig_minfreq_retry (s : State) (retry_cnt : Nat) : State :=
  match cpufreq_cpu_get s with
  | none =>
    if retry_cnt ≤ 3 then save_orig_minfreq_retry (looked_up s) (retry_cnt + 1)
    else looked_up s
  | some policy =>
    if policy.min ≠ s.minfreq_inf then { looked_up s with minfreq_orig := policy.min }
    else looked_up s
termination_by 4 - retry_cnt

/-- `save_orig_minfreq` of `cpu-boost_framework.c`. -/
def save_orig_minfreq (s : State) : State :=
  save_orig_minfreq_retry s 0

/-- `set_new_minfreq` of `cpu-boost_framework.c` from the label `retry`, with the
current value of `retry_cnt`. -/
def set_new_minfreq_retry (s : State) (minfreq retry_cnt : Nat) : State :=
  match cpufreq_cpu_get s with
  | none =>
    if retry_cnt ≤ 3 then set_new_minfreq_retry (looked_up s) minfreq (retry_cnt + 1)
    else looked_up s
  | some policy =>
    if minfreq > policy.max then
      if policy.max ≤ 486000 then
        { looked_up s with boost_duration_ms := 0, boost_override := 0 }
      else
        { looked_up s with user_policy := ⟨sub32 policy.max 108000, policy.max⟩ }
    else
      { looked_up s with user_policy := ⟨minfreq, policy.max⟩ }
termination_by 4 - retry_cnt

/-- `set_new_minfreq` of `cpu-boost_framework.c`. -/
def set_new_minfreq (s : State) (minfreq : Nat) : State :=
  set_new_minfreq_retry s minfreq 0

/-- `restore_original_minfreq` of `cpu-boost_framework.c`. -/
def restore_original_minfreq (s : State) : State :=
  let s1 := if s.minfreq_inf ≠ 0 then set_new_minfreq s s.minfreq_inf
            else set_new_minfreq s s.minfreq_orig
  { s1 with boost_duration_ms := 0, cpu_boosted := 0, boost_override := 0 }

/-- The end of `cpu_boost_main`: queue the expiry after `wait_ms = boost_duration_ms`,
or wait for the completion and queue the expiry with `wait_ms = 0` once it is
released; when the wait blocks, the step stops there with `waiting` set. -/
def cpu_boost_main_tail (s : State) : State :=
  if s.boost_duration_ms ≠ 0 then
    schedule_delayed_work s (msecs_to_jiffies s.boost_duration_ms)
  else
    match wait_for_completion s with
    | some s2 => schedule_delayed_work s2 (msecs_to_jiffies 0)
    | none => { s with waiting := true }

/-- The part of `cpu_boost_main` that runs once a blocked `wait_for_completion`
is released: the wait consumes the release and the expiry is queued with
`wait_ms = 0`; nothing happens while no step is blocked or no release is recorded. -/
def cpu_boost_main_resume (s : State) : State :=
  if s.waiting = true then
    match wait_for_completion s with
    | some s2 => schedule_delayed_work { s2 with waiting := false } (msecs_to_jiffies 0)
    | none => s
  else s

/-- `cpu_boost_main` of `cpu-boost_framework.c`, up to its return or to the point
where it blocks in `wait_for_completion`. -/
def cpu_boost_main (s : State) : State :=
  if s.cpu_boosted ≠ 0 then restore_original_minfreq s
  else
    let s1 := if s.boost_override = 0 then save_orig_minfreq s else s
    let s2 := if s1.boost_freq ≠ 0 then
                { set_new_minfreq s1 s1.boost_freq with cpu_boosted := 1 }
              else s1
    cpu_boost_main_tail s2

/-- `cpu_boost_input_event` of `cpu-boost_framework.c`. -/
def cpu_boost_input_event (s : State) (_type _code : Nat) (_value : Int) : State :=
  if s.input_boost_freq ≠ 0 ∧ s.input_boost_ms ≠ 0 then
    cpu_boost_timeout s s.input_boost_freq s.input_boost_ms
  else s

/-- The worker thread takes the queued `boost_work` off the queue and runs
`cpu_boost_main`; nothing runs when no work is queued. -/
def run_boost_work (s : State) : State :=
  match s.boost_work with
  | none => s
  | some _ => cpu_boost_main { s with boost_work := none }

/-- One API call on the state of `cpu-boost_framework.c`. -/
def call (s : State) : Call → State
  | Call.timeout freq duration_ms => cpu_boost_timeout s freq duration_ms
  | Call.boost freq => cpu_boost s freq
  | Call.unboost => cpu_unboost s

/-- A finite sequence of API calls, in order. -/
def calls (s : State) (cs : List Call) : State :=
  cs.foldl call s

end Framework

/-! ## Concrete states used by the examples -/

namespace CpuBoost

/-- An initialised, enabled, idle state of `cpu_boost.c` whose cores `0 .. n-1` are
all possible and online, core `i` having the policy `pols[i]` and the retained
policy `kept[i]` (all zero when `kept` is shorter). -/
def boot (pols kept : List cpufreq_user_policy) : State :=
  { enabled := 1, boost_duration_ms := 0, boost_freq_khz := 0, boost_override := 0,
    cpu_boosted := 0, init_done := 1,
    orig_policy := fun _ => ⟨0, 0, 0⟩,
    user_policy := fun c => kept.getD c ⟨0, 0, 0⟩,
    policy := fun c => pols.get? c,
    cpu_possible := List.range pols.length,
    cpu_online := List.range pols.length,
    boost_work := none, cpu_boost_no_timeout := 0, waiting := false }

/-- One core with floor 300000 and ceiling 1500000, no retained policy. -/
def one_core : State := boot [⟨300000, 1500000, 1⟩] []

/-- The state `one_core` with the enable flag cleared. -/
def one_core_disabled : State := { one_core with enabled := 0 }

/-- The state reached from `one_core` by `cpu_boost_timeout(800, 200)` and the
deferred step: a timed boost (800 MHz for 200 ms) is active. -/
def one_core_boosted : State :=
  (run_boost_work (cpu_boost_timeout one_core 800 200)).getD one_core

/-- The state reached from `one_core_boosted` by `cpu_boost_shutdown()`: the boost
is still active and the enable flag is 0. -/
def one_core_boosted_disabled : State := cpu_boost_shutdown one_core_boosted

/-- One core with floor 200000 and ceiling 400000, no retained policy. -/
def one_core_low_ceiling : State := boot [⟨200000, 400000, 1⟩] []

/-- Two cores with ceiling 1500000 and the floors 300000 and 400000, no retained policy. -/
def two_cores_uneven : State := boot [⟨300000, 1500000, 1⟩, ⟨400000, 1500000, 1⟩] []

/-- Two cores with the same floor and ceiling, no retained policy. -/
def two_cores : State := boot [⟨300000, 1500000, 1⟩, ⟨300000, 1500000, 1⟩] []

/-- Two cores with retained policies: core 0 is capped at 400000, core 1 at 1500000. -/
def capped_first_core : State :=
  boot [⟨200000, 400000, 1⟩, ⟨200000, 1500000, 1⟩]
       [⟨200000, 400000, 1⟩, ⟨200000, 1500000, 1⟩]

/-- Two cores with retained policies: core 0 has ceiling 500000, core 1 ceiling 400000. -/
def capped_second_core : State :=
  boot [⟨200000, 500000, 1⟩, ⟨200000, 400000, 1⟩]
       [⟨200000, 500000, 1⟩, ⟨200000, 400000, 1⟩]

/-- Three cores with retained policies: core 1 is capped at 400000, cores 0 and 2
at 1500000. -/
def capped_middle_core : State :=
  boot [⟨200000, 1500000, 1⟩, ⟨200000, 400000, 1⟩, ⟨200000, 1500000, 1⟩]
       [⟨200000, 1500000, 1⟩, ⟨200000, 400000, 1⟩, ⟨200000, 1500000, 1⟩]

/-- The state `capped_second_core` after the request `cpu_boost_timeout(600, 200)`,
when the worker has taken the queued work and is about to run `cpu_boost_main`. -/
def capped_second_core_requested : State :=
  { cpu_boost_timeout capped_second_core 600 200 with boost_work := none }

/-- The state `capped_second_core_requested` once the apply step has taken its snapshot. -/
def capped_second_core_snapshot : State :=
  { capped_second_core_requested with
    orig_policy := snapshot capped_second_core_requested [0, 1] }

/-- The state `capped_middle_core` after the request `cpu_boost_timeout(600, 200)`,
when the worker has taken the queued work and is about to run `cpu_boost_main`. -/
def capped_middle_core_requested : State :=
  { cpu_boost_timeout capped_middle_core 600 200 with boost_work := none }

/-- The state `capped_middle_core_requested` once the apply step has taken its snapshot. -/
def capped_middle_core_snapshot : State :=
  { capped_middle_core_requested with
    orig_policy := snapshot capped_middle_core_requested [0, 1, 2] }

/-- The state `one_core` before `cpu_boost_init` has set `init_done`. -/
def one_core_uninit : State := { one_core with init_done := 0 }

/-- The state `s` with the enable flag set to `e` and nothing else changed. -/
def with_enabled (e : Nat) (s : State) : State :=
  { s with enabled := e }

/-- The loop result `r` with the enable flag of its state set to `e`. -/
def exit_with_enabled (e : Nat) : LoopExit → LoopExit
  | LoopExit.finished s => LoopExit.finished (with_enabled e s)
  | LoopExit.returned s => LoopExit.returned (with_enabled e s)

end CpuBoost

namespace Framework

/-- An initialised, enabled, idle state of `cpu-boost_framework.c` with CPU0 floor
`m`, ceiling `c`, an always available policy and the given `minfreq_orig`. -/
def boot (m c orig : Nat) : State :=
  { boost_duration_ms := 0, boost_freq := 0, boost_override := 0, cpu_boosted := 0,
    enable := 1, init_done := 1, minfreq_orig := orig, minfreq_inf := 0,
    input_boost_freq := 0, input_boost_ms := 0,
    user_policy := ⟨m, c⟩, policy_ready := fun _ => true, lookups := 0,
    boost_work := none, cpu_boost_no_timeout := 0, waiting := false }

/-- The state `boot 300000 1500000 0` with the enable flag cleared. -/
def boot_disabled : State := { boot 300000 1500000 0 with enable := 0 }

/-- The state `boot 300000 1500000 0` whose policy lookup always fails. -/
def boot_unavailable : State := { boot 300000 1500000 0 with policy_ready := fun _ => false }

/-- The state `boot 300000 1500000 0` whose first two policy lookups fail and
whose later lookups succeed. -/
def boot_flaky : State :=
  { boot 300000 1500000 0 with policy_ready := fun n => decide (2 ≤ n) }

/-- The state `boot 300000 1500000 0` before `cpu_boost_init` has run (`init_done = 0`). -/
def boot_uninit : State := { boot 300000 1500000 0 with init_done := 0 }

/-- The state `boot 300000 1500000 0` with the module parameters
`input_boost_freq = 1200000` and `input_boost_ms = 40`, while a timed boost
(900000 for 200 ms) is active. -/
def boot_input_boosted : State :=
  { boot 900000 1500000 300000 with
    input_boost_freq := 1200000, input_boost_ms := 40, cpu_boosted := 1,
    boost_freq := 900000, boost_duration_ms := 200, boost_work := some 200 }

/-- A timed boost to 1200000 is active that has preempted a signal-terminated boost
to 900000 (`minfreq_inf = 900000`); the floor before both was 300000. -/
def boot_timed_over_signal : State :=
  { boot 1200000 1500000 300000 with
    cpu_boosted := 1, boost_override := 1, boost_freq := 1200000, boost_duration_ms := 200,
    minfreq_inf := 900000, boost_work := none }

/-- A timed boost is active whose snapshot `minfreq_orig = 1400000` lies above the
present ceiling 1000000. -/
def boot_orig_above_ceiling : State :=
  { boot 892000 1000000 1400000 with
    cpu_boosted := 1, boost_freq := 1200000, boost_duration_ms := 200, boost_work := none }

/-- The Activity-event adapter in the words of the spec: on an "activity occurred"
signal, when the configured frequency and duration are both nonzero, the timed
boost adapter is called with those fixed values; otherwise nothing happens.  The
event itself carries no argument. -/
def activity_event_adapter (s : State) : State :=
  if s.input_boost_freq ≠ 0 ∧ s.input_boost_ms ≠ 0 then
    cpu_boost_timeout s s.input_boost_freq s.input_boost_ms
  else s

end Framework

/-! ## Theorems -/

/-! ### Lemmas on `cpu_boost.c` -/

namespace CpuBoost

/-- Queuing `boost_work` in closed form: the queue holds the earlier entry when
there is one, the new delay otherwise; nothing else changes. -/
theorem schedule_eq (s : State) (delay : Nat) :
    schedule_delayed_work s delay = { s with boost_work := some (s.boost_work.getD delay) } := by
  cases s with
  | mk e d f o b i op up p cp co w cd wt =>
    cases w <;> rfl

theorem call_disabled (s : State) (h : s.enabled = 0) (c : Call) : call s c = s := by
  cases c <;> simp [call, cpu_boost_timeout, cpu_boost, cpu_unboost, h]

theorem calls_disabled (s : State) (h : s.enabled = 0) (cs : List Call) : calls s cs = s := by
  induction cs with
  | nil => rfl
  | cons c cs ih =>
    show calls (call s c) cs = s
    rw [call_disabled s h c]
    exact ih

/-- `cpu_boost` never writes `boost_duration_ms`. -/
theorem cpu_boost_duration (s : State) (freq_mhz : Nat) :
    (cpu_boost s freq_mhz).boost_duration_ms = s.boost_duration_ms := by
  simp only [cpu_boost, schedule_eq, init_completion, cancel_delayed_work]
  split_ifs <;> rfl

/-- `set_new_minfreq` on a core that has a policy writes that core's floor only. -/
theorem set_new_minfreq_some (s : State) (v c : Nat) (p : cpufreq_user_policy)
    (h : s.policy c = some p) :
    set_new_minfreq s v c =
      some { s with policy := setAt s.policy c (some ⟨v, p.max, p.governor⟩) } := by
  simp [set_new_minfreq, cpufreq_cpu_get, h]

theorem written_nil (v : Nat → Nat) (pol : Nat → Option cpufreq_user_policy) :
    written v [] pol = pol := by
  funext c
  simp [written]

theorem written_cons (v : Nat → Nat) (c : Nat) (rest : List Nat)
    (pol : Nat → Option cpufreq_user_policy) (p : cpufreq_user_policy) (h : pol c = some p) :
    written v rest (setAt pol c (some ⟨v c, p.max, p.governor⟩)) = written v (c :: rest) pol := by
  funext x
  by_cases hx : x = c
  · subst hx
    by_cases hr : x ∈ rest <;> simp [written, setAt, hr, h]
  · by_cases hr : x ∈ rest <;> simp [written, setAt, hr, hx]

theorem setAt_some_ne_none (pol : Nat → Option cpufreq_user_policy) (c : Nat)
    (q : cpufreq_user_policy) (x : Nat) (h : pol x ≠ none) : setAt pol c (some q) x ≠ none := by
  unfold setAt
  split_ifs <;> simp [h]

/-- The loop of `restore_original_minfreq` over cores that all have a policy
writes, for each of them, the snapshot floor. -/
theorem restore_loop_eq (l : List Nat) : ∀ (s : State), (∀ c, c ∈ l → s.policy c ≠ none) →
    restore_original_minfreq_loop l s =
      some { s with policy := written (fun c => (s.orig_policy c).min) l s.policy } := by
  induction l with
  | nil =>
    intro s _
    simp [restore_original_minfreq_loop, written_nil]
  | cons c rest ih =>
    intro s h
    obtain ⟨p, hp⟩ := Option.ne_none_iff_exists'.mp (h c (List.mem_cons_self c rest))
    rw [restore_original_minfreq_loop, set_new_minfreq_some s _ c p hp, Option.some_bind, ih]
    · simp only
      rw [written_cons (fun c => (s.orig_policy c).min) c rest s.policy p hp]
    · intro x hx
      exact setAt_some_ne_none _ _ _ _ (h x (List.mem_cons_of_mem c hx))

/-- With a zero target frequency the loop of `cpu_boost_main` writes nothing. -/
theorem boost_loop_zero (l : List Nat) (s : State) (h : s.boost_freq_khz = 0) :
    boost_online_cpus l s = some (LoopExit.finished s) := by
  induction l with
  | nil => rfl
  | cons c rest ih => simp [boost_online_cpus, h, ih]

/-- The loop of `cpu_boost_main` in closed form, for a nonzero target and cores that
all have a policy: the cores before the first aborting one receive their clamped
floor; the loop returns at the first aborting core, resetting the bookkeeping. -/
theorem boost_loop_eq (l : List Nat) : ∀ (s : State), s.boost_freq_khz ≠ 0 →
    (∀ c, c ∈ l → s.policy c ≠ none) →
    boost_online_cpus l s = some
      (if l.all (fun c => !aborts s c) = true then
         LoopExit.finished { s with policy := written (new_minfreq s) l s.policy }
       else
         LoopExit.returned
           { s with policy := written (new_minfreq s)
                      (l.takeWhile (fun c => !aborts s c)) s.policy,
                    boost_duration_ms := 0, boost_override := 0 }) := by
  induction l with
  | nil =>
    intro s _ _
    simp [boost_online_cpus, written_nil]
  | cons c rest ih =>
    intro s hF h
    obtain ⟨p, hp⟩ := Option.ne_none_iff_exists'.mp (h c (List.mem_cons_self c rest))
    have hrest : ∀ x, x ∈ rest → setAt s.policy c (some ⟨new_minfreq s c, p.max, p.governor⟩) x
        ≠ none := fun x hx =>
      setAt_some_ne_none _ _ _ _ (h x (List.mem_cons_of_mem c hx))
    by_cases hab : aborts s c = true
    · have hab2 : s.boost_freq_khz ≥ (s.orig_policy c).max ∧ (s.orig_policy c).max ≤ 486000 := by
        simpa [aborts] using hab
      simp [boost_online_cpus, hF, hab2.1, hab2.2, hab, List.takeWhile, written_nil]
    · have hab' : aborts s c = false := by simpa using hab
      have key : boost_online_cpus (c :: rest) s =
          boost_online_cpus rest
            { s with policy := setAt s.policy c (some ⟨new_minfreq s c, p.max, p.governor⟩) } := by
        have hab2 : ¬ (s.boost_freq_khz ≥ (s.orig_policy c).max ∧
            (s.orig_policy c).max ≤ 486000) := by
          simpa [aborts] using hab'
        by_cases hge : s.boost_freq_khz ≥ (s.orig_policy c).max
        · have hgt : ¬ (s.orig_policy c).max ≤ 486000 := fun h2 => hab2 ⟨hge, h2⟩
          simp [boost_online_cpus, hF, hge, hgt, new_minfreq, set_new_minfreq_some s _ c p hp]
        · simp [boost_online_cpus, hF, hge, new_minfreq, set_new_minfreq_some s _ c p hp]
      have ih1 := ih
        { s with policy := setAt s.policy c (some ⟨new_minfreq s c, p.max, p.governor⟩) } hF hrest
      rw [key, ih1]
      have e1 : ∀ (l : List Nat),
          written (new_minfreq s) l (setAt s.policy c (some ⟨new_minfreq s c, p.max, p.governor⟩))
            = written (new_minfreq s) (c :: l) s.policy :=
        fun l => written_cons (new_minfreq s) c l s.policy p hp
      have hn : new_minfreq
          { s with policy := setAt s.policy c (some ⟨new_minfreq s c, p.max, p.governor⟩) }
          = new_minfreq s := rfl
      have ha : ∀ x, aborts
          { s with policy := setAt s.policy c (some ⟨new_minfreq s c, p.max, p.governor⟩) } x
          = aborts s x := fun _ => rfl
      simp only [hn, ha, e1, List.all_cons, List.takeWhile_cons, hab', Bool.not_false,
        Bool.true_and, if_true]

/-- `save_original_freq_limits` writes `orig_policy` only. -/
theorem save_loop_frame (l : List Nat) : ∀ (s s1 : State),
    save_original_freq_limits_loop l s = some s1 →
    s1 = { s with orig_policy := s1.orig_policy } := by
  induction l with
  | nil =>
    intro s s1 h
    simp only [save_original_freq_limits_loop, Option.some.injEq] at h
    rw [← h]
  | cons c rest ih =>
    intro s s1 h
    rw [save_original_freq_limits_loop] at h
    split_ifs at h with hr
    · have := ih _ s1 h
      rw [this]
    · split at h
      · exact absurd h (by simp)
      · have := ih _ s1 h
        rw [this]

theorem snapshot_nil (s : State) : snapshot s [] = s.orig_policy := by
  funext c
  simp [snapshot]

/-- The loop of `save_original_freq_limits` in closed form, when every visited core
has a retained policy or CPU0 has a policy. -/
theorem save_loop_eq (l : List Nat) : ∀ (s : State), (∀ c, c ∈ l → captured s c ≠ none) →
    save_original_freq_limits_loop l s = some { s with orig_policy := snapshot s l } := by
  induction l with
  | nil =>
    intro s _
    simp [save_original_freq_limits_loop, snapshot_nil]
  | cons c rest ih =>
    intro s h
    obtain ⟨mm, hmm⟩ := Option.ne_none_iff_exists'.mp (h c (List.mem_cons_self c rest))
    have key : save_original_freq_limits_loop (c :: rest) s =
        save_original_freq_limits_loop rest
          { s with orig_policy :=
              setAt s.orig_policy c ⟨mm.1, mm.2, (s.orig_policy c).governor⟩ } := by
      rw [save_original_freq_limits_loop]
      unfold captured at hmm
      split_ifs at hmm ⊢ with hr
      · simp only [Option.some.injEq] at hmm
        rw [← hmm]
      · cases hp0 : cpufreq_cpu_get s 0 with
        | none => simp [hp0] at hmm
        | some p0 =>
          simp only [hp0, Option.map_some', Option.some.injEq] at hmm
          rw [← hmm]
    have hc : ∀ x, captured
        { s with orig_policy := setAt s.orig_policy c ⟨mm.1, mm.2, (s.orig_policy c).governor⟩ } x
        = captured s x := fun _ => rfl
    rw [key, ih]
    · congr 2
      funext x
      simp only [snapshot, hc, setAt, List.mem_cons]
      by_cases hx : x = c
      · subst hx
        by_cases hr : x ∈ rest <;> simp [hr, hmm]
      · by_cases hr : x ∈ rest <;> simp [hr, hx]
    · intro x hx
      rw [hc]
      exact h x (List.mem_cons_of_mem c hx)

/-- The first statements of the apply branch change `orig_policy` only. -/
theorem snapshot_unless_override_frame (s s1 : State) (h : snapshot_unless_override s = some s1) :
    s1 = { s with orig_policy := s1.orig_policy } := by
  unfold snapshot_unless_override at h
  split_ifs at h
  · exact save_loop_frame _ s s1 h
  · simp only [Option.some.injEq] at h
    rw [← h]

/-- The last statements of `cpu_boost_main` in closed form. -/
theorem cpu_boost_main_tail_eq (s : State) :
    cpu_boost_main_tail s =
      if s.boost_duration_ms ≠ 0 then
        { s with cpu_boosted := 1, boost_work := some (s.boost_work.getD s.boost_duration_ms) }
      else if s.cpu_boost_no_timeout ≠ 0 then
        { s with cpu_boosted := 1, cpu_boost_no_timeout := s.cpu_boost_no_timeout - 1,
                 boost_work := some (s.boost_work.getD 0) }
      else { s with cpu_boosted := 1, waiting := true } := by
  simp only [cpu_boost_main_tail, schedule_eq, wait_for_completion, msecs_to_jiffies]
  split_ifs <;> rfl

theorem sub32_of_le (a b : Nat) (h : b ≤ a) : sub32 a b = a - b := by
  simp [sub32, h]

theorem written_mem (v : Nat → Nat) (l : List Nat) (pol : Nat → Option cpufreq_user_policy)
    (c : Nat) (p : cpufreq_user_policy) (hc : c ∈ l) (hp : pol c = some p) :
    written v l pol c = some ⟨v c, p.max, p.governor⟩ := by
  simp [written, hc, hp]

theorem written_not_mem (v : Nat → Nat) (l : List Nat) (pol : Nat → Option cpufreq_user_policy)
    (c : Nat) (hc : c ∉ l) : written v l pol c = pol c := by
  simp [written, hc]

theorem cpu_boost_main_tail_policy (s : State) : (cpu_boost_main_tail s).policy = s.policy := by
  rw [cpu_boost_main_tail_eq]
  split_ifs <;> rfl

theorem cpu_boost_main_tail_orig (s : State) :
    (cpu_boost_main_tail s).orig_policy = s.orig_policy := by
  rw [cpu_boost_main_tail_eq]
  split_ifs <;> rfl

theorem cpu_boost_main_tail_possible (s : State) :
    (cpu_boost_main_tail s).cpu_possible = s.cpu_possible := by
  rw [cpu_boost_main_tail_eq]
  split_ifs <;> rfl

theorem cpu_boost_main_tail_boosted (s : State) : (cpu_boost_main_tail s).cpu_boosted = 1 := by
  rw [cpu_boost_main_tail_eq]
  split_ifs <;> rfl

/-- Outcome of the loop of `cpu_boost_main` and of the statements after it, for a
nonzero target and online cores that all have a policy: the online cores before
the first aborting one hold their clamped floor, every other floor is as before;
when no core aborts the last statements of the function run, otherwise only the
duration and the override flag are reset. -/
theorem apply_loop_outcome (s : State) (hF : s.boost_freq_khz ≠ 0)
    (hpol : ∀ c, c ∈ s.cpu_online → s.policy c ≠ none) :
    ∃ s2, (boost_online_cpus s.cpu_online s).map after_loop = some s2 ∧
      s2.policy = written (new_minfreq s)
        (s.cpu_online.takeWhile (fun c => !aborts s c)) s.policy ∧
      s2.orig_policy = s.orig_policy ∧ s2.cpu_possible = s.cpu_possible ∧
      ((s.cpu_online.all (fun c => !aborts s c)) = true →
        s2 = cpu_boost_main_tail { s with policy := s2.policy }) ∧
      (¬ (s.cpu_online.all (fun c => !aborts s c)) = true →
        s2 = { s with policy := s2.policy, boost_duration_ms := 0, boost_override := 0 }) := by
  rw [boost_loop_eq s.cpu_online s hF hpol]
  by_cases hall : (s.cpu_online.all (fun c => !aborts s c)) = true
  · have htw : s.cpu_online.takeWhile (fun c => !aborts s c) = s.cpu_online := by
      rw [List.takeWhile_eq_self_iff]
      intro x hx
      exact (List.all_eq_true.mp hall) x hx
    refine ⟨cpu_boost_main_tail
        { s with policy := written (new_minfreq s) s.cpu_online s.policy },
      by simp only [hall, if_true, Option.map_some', after_loop], ?_, ?_, ?_, ?_, ?_⟩
    · rw [cpu_boost_main_tail_policy, htw]
    · rw [cpu_boost_main_tail_orig]
    · rw [cpu_boost_main_tail_possible]
    · intro _
      rw [cpu_boost_main_tail_policy]
    · intro h
      exact absurd hall h
  · refine ⟨{ s with boost_duration_ms := 0, boost_override := 0,
                     policy := (written (new_minfreq s)
                       (s.cpu_online.takeWhile (fun c => !aborts s c)) s.policy) },
      by simp [hall, after_loop], rfl, rfl, rfl, ?_, ?_⟩
    · intro h
      exact absurd h hall
    · intro _
      rfl

/-- The floor of a core after a sequence of writes: the written value when the core
is among the written ones and has a policy, its earlier floor otherwise. -/
theorem floor_written (v : Nat → Nat) (l : List Nat) (pol : Nat → Option cpufreq_user_policy)
    (c : Nat) :
    (written v l pol c).map (fun p => p.min) =
      if c ∈ l then (pol c).map (fun _ => v c) else (pol c).map (fun p => p.min) := by
  unfold written
  split_ifs
  · cases pol c <;> rfl
  · rfl

theorem written_ne_none (v : Nat → Nat) (l : List Nat) (pol : Nat → Option cpufreq_user_policy)
    (c : Nat) (h : pol c ≠ none) : written v l pol c ≠ none := by
  unfold written
  split_ifs
  · cases hp : pol c with
    | none => exact absurd hp h
    | some p => simp
  · exact h

/-- The apply step of `cpu_boost_main` when no online core aborts (none can when
the target is 0): after the
snapshot (if any), every online core receives its clamped floor (none when the
target is 0), then the last statements of the function run. -/
theorem apply_step_completes (s s1 : State) (hb : s.cpu_boosted = 0)
    (hs1 : snapshot_unless_override s = some s1)
    (hpol : ∀ c, c ∈ s.cpu_online → s.policy c ≠ none)
    (hno : s.boost_freq_khz ≠ 0 → ∀ c, c ∈ s.cpu_online → aborts s1 c = false) :
    cpu_boost_main s = some (cpu_boost_main_tail
      { s1 with policy := if s.boost_freq_khz = 0 then s.policy
                          else written (new_minfreq s1) s.cpu_online s.policy }) := by
  have hfr := snapshot_unless_override_frame s s1 hs1
  have hp : s1.policy = s.policy := by rw [hfr]
  have hf : s1.boost_freq_khz = s.boost_freq_khz := by rw [hfr]
  have ho : s1.cpu_online = s.cpu_online := by rw [hfr]
  simp only [cpu_boost_main, hb, ne_eq, not_true_eq_false, if_false, hs1, Option.some_bind]
  by_cases hF : s.boost_freq_khz = 0
  · rw [boost_loop_zero _ s1 (by rw [hf]; exact hF)]
    simp only [Option.map_some', after_loop, hF, if_true]
    congr 2
    rw [← hp]
  · have hF1 : s1.boost_freq_khz ≠ 0 := by rw [hf]; exact hF
    have hpol1 : ∀ c, c ∈ s1.cpu_online → s1.policy c ≠ none := by rw [ho, hp]; exact hpol
    have hall : (s1.cpu_online.all (fun c => !aborts s1 c)) = true := by
      rw [List.all_eq_true]
      intro x hx
      rw [ho] at hx
      simp [hno hF x hx]
    rw [boost_loop_eq s1.cpu_online s1 hF1 hpol1, if_pos hall]
    simp only [Option.map_some', after_loop, hF, if_false, ho, hp]

/-- The restore step of `cpu_boost_main` (`cpu_boosted` nonzero) when every
possible core has a policy: every possible core receives its snapshot floor and
the three bookkeeping variables are cleared. -/
theorem restore_step (s : State) (hb : s.cpu_boosted ≠ 0)
    (hpol : ∀ c, c ∈ s.cpu_possible → s.policy c ≠ none) :
    cpu_boost_main s = some
      { s with policy := written (fun c => (s.orig_policy c).min) s.cpu_possible s.policy,
               boost_duration_ms := 0, cpu_boosted := 0, boost_override := 0 } := by
  simp only [cpu_boost_main, hb, ne_eq, not_false_eq_true, if_true, restore_original_minfreq,
    restore_loop_eq s.cpu_possible s hpol, Option.map_some']

/-- The deferred step in a state that a preempting request has prepared
(`cpu_boosted = 0`, `boost_override` nonzero): it takes the apply branch without a
snapshot, so `orig_policy` is kept; when no online core aborts the cycle becomes
active, every online core holds the clamp of the target against its snapshot
ceiling, and the next deferred step restores every possible core to its snapshot
floor and clears the bookkeeping. -/
theorem preempting_apply_step (s : State) (hb : s.cpu_boosted = 0) (ho : s.boost_override ≠ 0)
    (hpol : ∀ c, c ∈ s.cpu_possible → s.policy c ≠ none)
    (hon : ∀ c, c ∈ s.cpu_online → c ∈ s.cpu_possible) :
    cpu_boost_main s = (boost_online_cpus s.cpu_online s).map after_loop ∧
    ∃ s2, cpu_boost_main s = some s2 ∧ s2.orig_policy = s.orig_policy ∧
      ((∀ c, c ∈ s.cpu_online →
          ¬ (s.boost_freq_khz ≠ 0 ∧ s.boost_freq_khz ≥ (s.orig_policy c).max ∧
              (s.orig_policy c).max ≤ 486000)) →
        s2.cpu_boosted = 1 ∧
        (s.boost_freq_khz ≠ 0 → ∀ c, c ∈ s.cpu_online →
          (s.boost_freq_khz < (s.orig_policy c).max → floor s2 c = some s.boost_freq_khz) ∧
          (s.boost_freq_khz ≥ (s.orig_policy c).max →
            floor s2 c = some ((s.orig_policy c).max - 108000))) ∧
        ∃ s3, cpu_boost_main s2 = some s3 ∧
          (∀ c, c ∈ s.cpu_possible → floor s3 c = some (s.orig_policy c).min) ∧
          s3.cpu_boosted = 0 ∧ s3.boost_override = 0 ∧ s3.boost_duration_ms = 0) := by
  have hs1 : snapshot_unless_override s = some s := by
    simp only [snapshot_unless_override, ho, if_false]
  have hmain : cpu_boost_main s = (boost_online_cpus s.cpu_online s).map after_loop := by
    simp only [cpu_boost_main, hb, ne_eq, not_true_eq_false, if_false, hs1, Option.some_bind]
  have hpolo : ∀ c, c ∈ s.cpu_online → s.policy c ≠ none := fun c hc => hpol c (hon c hc)
  refine ⟨hmain, ?_⟩
  by_cases hno : ∀ c, c ∈ s.cpu_online →
      ¬ (s.boost_freq_khz ≠ 0 ∧ s.boost_freq_khz ≥ (s.orig_policy c).max ∧
          (s.orig_policy c).max ≤ 486000)
  · have hnoab : s.boost_freq_khz ≠ 0 → ∀ c, c ∈ s.cpu_online → aborts s c = false := by
      intro hF c hc
      simp only [aborts, decide_eq_false_iff_not]
      exact fun h => hno c hc ⟨hF, h⟩
    have e1 := apply_step_completes s s hb hs1 hpolo hnoab
    have hpol2 : ∀ c, c ∈ s.cpu_possible →
        (if s.boost_freq_khz = 0 then s.policy
          else written (new_minfreq s) s.cpu_online s.policy) c ≠ none := by
      intro c hc
      split_ifs
      · exact hpol c hc
      · exact written_ne_none _ _ _ c (hpol c hc)
    refine ⟨_, e1, cpu_boost_main_tail_orig _, fun _ => ⟨cpu_boost_main_tail_boosted _, ?_, ?_⟩⟩
    · intro hF c hc
      obtain ⟨p, hp⟩ := Option.ne_none_iff_exists'.mp (hpolo c hc)
      have hfl : floor (cpu_boost_main_tail
          { s with policy := if s.boost_freq_khz = 0 then s.policy
                             else written (new_minfreq s) s.cpu_online s.policy }) c
          = some (new_minfreq s c) := by
        simp only [floor, cpu_boost_main_tail_policy, hF, if_false,
          written_mem _ _ _ c p hc hp, Option.map_some']
      rw [hfl]
      constructor
      · intro hlt
        simp only [new_minfreq]
        rw [if_neg (by omega)]
      · intro hge
        have hgt : ¬ (s.orig_policy c).max ≤ 486000 := fun h => hno c hc ⟨hF, hge, h⟩
        simp only [new_minfreq]
        rw [if_pos hge, sub32_of_le _ _ (by omega)]
    · rw [restore_step _ (by rw [cpu_boost_main_tail_boosted]; decide)
        (by rw [cpu_boost_main_tail_possible, cpu_boost_main_tail_policy]; exact hpol2)]
      refine ⟨_, rfl, ?_, rfl, rfl, rfl⟩
      intro c hc
      obtain ⟨q, hq⟩ := Option.ne_none_iff_exists'.mp (hpol2 c hc)
      simp only [floor, floor_written, cpu_boost_main_tail_possible, cpu_boost_main_tail_policy,
        cpu_boost_main_tail_orig, hc, if_true, hq, Option.map_some']
  · by_cases hF : s.boost_freq_khz = 0
    · exact absurd (fun c _ h => h.1 hF) hno
    · obtain ⟨s2, hs2, -, ho2, -, -, -⟩ := apply_loop_outcome s hF hpolo
      exact ⟨s2, hmain.trans hs2, ho2, fun h => absurd h hno⟩

end CpuBoost

/-! ### Lemmas on `cpu-boost_framework.c` -/

namespace Framework

/-- Queuing `boost_work` in closed form: the queue holds the earlier entry when
there is one, the new delay otherwise; nothing else changes. -/
theorem fw_schedule_eq (s : State) (delay : Nat) :
    schedule_delayed_work s delay = { s with boost_work := some (s.boost_work.getD delay) } := by
  cases s with
  | mk d f o b e i mo mi ifr ims up pr lk w cd wt =>
    cases w <;> rfl

theorem fw_call_disabled (s : State) (h : s.enable = 0) (c : Call) : call s c = s := by
  cases c <;> simp [call, cpu_boost_timeout, cpu_boost, cpu_unboost, h]

theorem fw_calls_disabled (s : State) (h : s.enable = 0) (cs : List Call) : calls s cs = s := by
  induction cs with
  | nil => rfl
  | cons c cs ih =>
    show calls (call s c) cs = s
    rw [fw_call_disabled s h c]
    exact ih

/-- When the next `n` lookups all fail and `retry_cnt + n = 5`, the retry loop of
`save_orig_minfreq` makes exactly those `n` lookups and changes nothing else. -/
theorem save_retry_all_fail (n : Nat) : ∀ (s : State) (r : Nat), r + (n + 1) = 5 →
    (∀ i, i < n + 1 → s.policy_ready (s.lookups + i) = false) →
    save_orig_minfreq_retry s r = { s with lookups := s.lookups + (n + 1) } := by
  induction n with
  | zero =>
    intro s r hr h
    have h0 : s.policy_ready s.lookups = false := by simpa using h 0 (by omega)
    rw [save_orig_minfreq_retry]
    have hr3 : ¬ r ≤ 3 := by omega
    simp [cpufreq_cpu_get, h0, hr3, looked_up]
  | succ n ih =>
    intro s r hr h
    have h0 : s.policy_ready s.lookups = false := by simpa using h 0 (by omega)
    rw [save_orig_minfreq_retry]
    have hr3 : r ≤ 3 := by omega
    simp only [cpufreq_cpu_get, h0, hr3, if_true, Bool.false_eq_true, if_false]
    rw [ih (looked_up s) (r + 1) (by omega)]
    · simp only [looked_up]
      have e : s.lookups + 1 + (n + 1) = s.lookups + (n + 1 + 1) := by omega
      rw [e]
    · intro i hi
      have := h (i + 1) (by omega)
      simpa [looked_up, Nat.add_assoc, Nat.add_comm 1 i] using this

/-- When the next `j` lookups fail and the one after succeeds, within the retry
budget, `save_orig_minfreq` proceeds with the policy after `j + 1` lookups. -/
theorem save_retry_success (j : Nat) : ∀ (s : State) (r : Nat), r + j ≤ 4 →
    (∀ i, i < j → s.policy_ready (s.lookups + i) = false) →
    s.policy_ready (s.lookups + j) = true →
    save_orig_minfreq_retry s r =
      if s.user_policy.min ≠ s.minfreq_inf then
        { s with lookups := s.lookups + (j + 1), minfreq_orig := s.user_policy.min }
      else { s with lookups := s.lookups + (j + 1) } := by
  induction j with
  | zero =>
    intro s r _ _ h1
    have h0 : s.policy_ready s.lookups = true := by simpa using h1
    rw [save_orig_minfreq_retry]
    simp [cpufreq_cpu_get, h0, looked_up]
  | succ j ih =>
    intro s r hr h h1
    have h0 : s.policy_ready s.lookups = false := by simpa using h 0 (by omega)
    rw [save_orig_minfreq_retry]
    have hr3 : r ≤ 3 := by omega
    simp only [cpufreq_cpu_get, h0, hr3, if_true, Bool.false_eq_true, if_false]
    rw [ih (looked_up s) (r + 1) (by omega)]
    · simp only [looked_up]
      have e : s.lookups + 1 + (j + 1) = s.lookups + (j + 1 + 1) := by omega
      rw [e]
    · intro i hi
      have := h (i + 1) (by omega)
      simpa [looked_up, Nat.add_assoc, Nat.add_comm 1 i] using this
    · simpa [looked_up, Nat.add_assoc, Nat.add_comm 1 j] using h1

/-- When the next `n` lookups all fail and `retry_cnt + n = 5`, the retry loop of
`set_new_minfreq` makes exactly those `n` lookups and changes nothing else. -/
theorem set_retry_all_fail (n : Nat) : ∀ (s : State) (minfreq r : Nat), r + (n + 1) = 5 →
    (∀ i, i < n + 1 → s.policy_ready (s.lookups + i) = false) →
    set_new_minfreq_retry s minfreq r = { s with lookups := s.lookups + (n + 1) } := by
  induction n with
  | zero =>
    intro s minfreq r hr h
    have h0 : s.policy_ready s.lookups = false := by simpa using h 0 (by omega)
    rw [set_new_minfreq_retry]
    have hr3 : ¬ r ≤ 3 := by omega
    simp [cpufreq_cpu_get, h0, hr3, looked_up]
  | succ n ih =>
    intro s minfreq r hr h
    have h0 : s.policy_ready s.lookups = false := by simpa using h 0 (by omega)
    rw [set_new_minfreq_retry]
    have hr3 : r ≤ 3 := by omega
    simp only [cpufreq_cpu_get, h0, hr3, if_true, Bool.false_eq_true, if_false]
    rw [ih (looked_up s) minfreq (r + 1) (by omega)]
    · simp only [looked_up]
      have e : s.lookups + 1 + (n + 1) = s.lookups + (n + 1 + 1) := by omega
      rw [e]
    · intro i hi
      have := h (i + 1) (by omega)
      simpa [looked_up, Nat.add_assoc, Nat.add_comm 1 i] using this

/-- When the next `j` lookups fail and the one after succeeds, within the retry
budget, `set_new_minfreq` proceeds with the policy after `j + 1` lookups: it
clamps the requested floor against the ceiling and writes it, or aborts. -/
theorem set_retry_success (j : Nat) : ∀ (s : State) (minfreq r : Nat), r + j ≤ 4 →
    (∀ i, i < j → s.policy_ready (s.lookups + i) = false) →
    s.policy_ready (s.lookups + j) = true →
    set_new_minfreq_retry s minfreq r =
      if minfreq > s.user_policy.max then
        if s.user_policy.max ≤ 486000 then
          { s with lookups := s.lookups + (j + 1), boost_duration_ms := 0, boost_override := 0 }
        else
          { s with lookups := s.lookups + (j + 1),
                   user_policy := ⟨sub32 s.user_policy.max 108000, s.user_policy.max⟩ }
      else { s with lookups := s.lookups + (j + 1),
                    user_policy := ⟨minfreq, s.user_policy.max⟩ } := by
  induction j with
  | zero =>
    intro s minfreq r _ _ h1
    have h0 : s.policy_ready s.lookups = true := by simpa using h1
    rw [set_new_minfreq_retry]
    simp [cpufreq_cpu_get, h0, looked_up]
  | succ j ih =>
    intro s minfreq r hr h h1
    have h0 : s.policy_ready s.lookups = false := by simpa using h 0 (by omega)
    rw [set_new_minfreq_retry]
    have hr3 : r ≤ 3 := by omega
    simp only [cpufreq_cpu_get, h0, hr3, if_true, Bool.false_eq_true, if_false]
    rw [ih (looked_up s) minfreq (r + 1) (by omega)]
    · simp only [looked_up]
      have e : s.lookups + 1 + (j + 1) = s.lookups + (j + 1 + 1) := by omega
      rw [e]
    · intro i hi
      have := h (i + 1) (by omega)
      simpa [looked_up, Nat.add_assoc, Nat.add_comm 1 i] using this
    · simpa [looked_up, Nat.add_assoc, Nat.add_comm 1 j] using h1

/-- With the policy available at the next lookup, `save_orig_minfreq` makes one
lookup and records the floor unless it equals `minfreq_inf`. -/
theorem save_orig_minfreq_ready (s : State) (h : s.policy_ready s.lookups = true) :
    save_orig_minfreq s =
      if s.user_policy.min ≠ s.minfreq_inf then
        { s with lookups := s.lookups + 1, minfreq_orig := s.user_policy.min }
      else { s with lookups := s.lookups + 1 } :=
  save_retry_success 0 s 0 (by omega) (fun _ hi => absurd hi (Nat.not_lt_zero _)) h

/-- With the policy available at the next lookup, `set_new_minfreq` makes one
lookup and writes the clamped floor, or aborts. -/
theorem set_new_minfreq_ready (s : State) (minfreq : Nat)
    (h : s.policy_ready s.lookups = true) :
    set_new_minfreq s minfreq =
      if minfreq > s.user_policy.max then
        if s.user_policy.max ≤ 486000 then
          { s with lookups := s.lookups + 1, boost_duration_ms := 0, boost_override := 0 }
        else
          { s with lookups := s.lookups + 1,
                   user_policy := ⟨sub32 s.user_policy.max 108000, s.user_policy.max⟩ }
      else { s with lookups := s.lookups + 1, user_policy := ⟨minfreq, s.user_policy.max⟩ } :=
  set_retry_success 0 s minfreq 0 (by omega) (fun _ hi => absurd hi (Nat.not_lt_zero _)) h

end Framework

/-! ### The claims -/

/-- C1, as the claim states it, fails: with core 0 capped at 400000 and core 1 at
1500000 (both online, snapshot ceilings as captured by the apply step), the
request 600000 kHz is below core 1's ceiling, yet the apply step writes no floor
for core 1: the loop returns at core 0, whose ceiling is at most 486000. -/
theorem clamp_rule_skips_cores_after_abort :
    CpuBoost.capped_first_core.cpu_online = [0, 1] ∧
    (CpuBoost.cpu_boost_timeout CpuBoost.capped_first_core 600 200).boost_freq_khz = 600000 ∧
    (CpuBoost.run_boost_work (CpuBoost.cpu_boost_timeout CpuBoost.capped_first_core 600 200)).map
      (fun s => ((s.orig_policy 0).max, (s.orig_policy 1).max, CpuBoost.ceiling s 1))
      = some (400000, 1500000, some 1500000) ∧
    CpuBoost.floor CpuBoost.capped_first_core 1 = some 200000 ∧
    (CpuBoost.run_boost_work (CpuBoost.cpu_boost_timeout CpuBoost.capped_first_core 600 200)).map
      (fun s => CpuBoost.floor s 1) = some (some 200000) := by
  decide

/-- C1, amended: in the apply step of `cpu_boost_main` (`cpu_boosted = 0`), with a
nonzero requested floor `F = boost_freq_khz`, every online core having a policy,
let `C` be the ceiling `orig_policy[cpu].max` the loop reads for an online core
`cpu` (after the snapshot, when one is taken), and let no online core visited
before `cpu` have a ceiling at most 486000 that `F` reaches.  Then the step
writes floor `F` for `cpu` when `F < C`, writes `C - 108000` when `F ≥ C` and
`C > 486000`, and leaves the floor of `cpu` as it was when `F ≥ C` and
`C ≤ 486000`. -/
theorem clamp_rule_for_reached_cores (s s1 : CpuBoost.State) (cpu : Nat) (pre post : List Nat)
    (hb : s.cpu_boosted = 0)
    (hs1 : CpuBoost.snapshot_unless_override s = some s1)
    (hF : s.boost_freq_khz ≠ 0)
    (hon : s.cpu_online = pre ++ cpu :: post)
    (hpol : ∀ c, c ∈ s.cpu_online → s.policy c ≠ none)
    (hpre : ∀ c, c ∈ pre →
      ¬ (s.boost_freq_khz ≥ (s1.orig_policy c).max ∧ (s1.orig_policy c).max ≤ 486000)) :
    ∃ s2, CpuBoost.cpu_boost_main s = some s2 ∧
      (s.boost_freq_khz < (s1.orig_policy cpu).max →
        CpuBoost.floor s2 cpu = some s.boost_freq_khz) ∧
      (s.boost_freq_khz ≥ (s1.orig_policy cpu).max ∧ (s1.orig_policy cpu).max > 486000 →
        CpuBoost.floor s2 cpu = some ((s1.orig_policy cpu).max - 108000)) ∧
      (s.boost_freq_khz ≥ (s1.orig_policy cpu).max ∧ (s1.orig_policy cpu).max ≤ 486000 →
        CpuBoost.floor s2 cpu = CpuBoost.floor s cpu) := by
  have hfr := CpuBoost.snapshot_unless_override_frame s s1 hs1
  have hp : s1.policy = s.policy := by rw [hfr]
  have hf : s1.boost_freq_khz = s.boost_freq_khz := by rw [hfr]
  have ho : s1.cpu_online = s.cpu_online := by rw [hfr]
  have hF1 : s1.boost_freq_khz ≠ 0 := by rw [hf]; exact hF
  have hpol1 : ∀ c, c ∈ s1.cpu_online → s1.policy c ≠ none := by rw [ho, hp]; exact hpol
  obtain ⟨s2, hs2, hpol2, -, -, -, -⟩ := CpuBoost.apply_loop_outcome s1 hF1 hpol1
  have hpreP : ∀ a, a ∈ pre → (!CpuBoost.aborts s1 a) = true := by
    intro a ha
    have := hpre a ha
    simp only [CpuBoost.aborts, hf, Bool.not_eq_true', decide_eq_false_iff_not]
    exact this
  have htw : s1.cpu_online.takeWhile (fun c => !CpuBoost.aborts s1 c)
      = pre ++ (cpu :: post).takeWhile (fun c => !CpuBoost.aborts s1 c) := by
    rw [ho, hon]
    exact List.takeWhile_append_of_pos hpreP
  obtain ⟨p, hpc⟩ := Option.ne_none_iff_exists'.mp
    (hpol cpu (by rw [hon]; exact List.mem_append_right _ (List.mem_cons_self cpu post)))
  have hreach : (!CpuBoost.aborts s1 cpu) = true →
      CpuBoost.floor s2 cpu = some (CpuBoost.new_minfreq s1 cpu) := by
    intro hc
    have hmem : cpu ∈ s1.cpu_online.takeWhile (fun c => !CpuBoost.aborts s1 c) := by
      rw [htw, @List.takeWhile_cons_of_pos Nat (fun c => !CpuBoost.aborts s1 c) cpu post hc]
      exact List.mem_append_right _ (List.mem_cons_self _ _)
    unfold CpuBoost.floor
    rw [hpol2, CpuBoost.written_mem _ _ _ cpu p hmem (by rw [hp]; exact hpc)]
    rfl
  refine ⟨s2, ?_, ?_, ?_, ?_⟩
  · simp only [CpuBoost.cpu_boost_main, hb, ne_eq, not_true_eq_false, if_false, hs1,
      Option.some_bind, hs2]
  · intro hlt
    have hc : (!CpuBoost.aborts s1 cpu) = true := by
      simp only [CpuBoost.aborts, hf, Bool.not_eq_true', decide_eq_false_iff_not]
      omega
    rw [hreach hc]
    simp only [CpuBoost.new_minfreq, hf]
    rw [if_neg (by omega)]
  · intro hge
    have hc : (!CpuBoost.aborts s1 cpu) = true := by
      simp only [CpuBoost.aborts, hf, Bool.not_eq_true', decide_eq_false_iff_not]
      omega
    rw [hreach hc]
    simp only [CpuBoost.new_minfreq, hf]
    rw [if_pos hge.1, CpuBoost.sub32_of_le _ _ (by omega)]
  · intro hab
    have hc : ¬ ((!CpuBoost.aborts s1 cpu) = true) := by
      simp only [CpuBoost.aborts, hf, Bool.not_eq_true', decide_eq_false_iff_not, not_not]
      exact hab
    have hnot : cpu ∉ s1.cpu_online.takeWhile (fun c => !CpuBoost.aborts s1 c) := by
      rw [htw, @List.takeWhile_cons_of_neg Nat (fun c => !CpuBoost.aborts s1 c) cpu post hc,
        List.append_nil]
      intro hin
      exact hpre cpu hin hab
    unfold CpuBoost.floor
    rw [hpol2, CpuBoost.written_not_mem _ _ _ cpu hnot, hp]

/-- Witness of C1 (amended): ceilings 500000 (core 0) and 400000 (core 1), request
600000 kHz: core 0 receives the floor 392000, core 1 receives no write. -/
theorem clamp_rule_for_reached_cores_witness :
    CpuBoost.capped_second_core_requested.cpu_boosted = 0 ∧
    CpuBoost.snapshot_unless_override CpuBoost.capped_second_core_requested
      = some CpuBoost.capped_second_core_snapshot ∧
    CpuBoost.capped_second_core_requested.boost_freq_khz = 600000 ∧
    (CpuBoost.capped_second_core_snapshot.orig_policy 0).max = 500000 ∧
    (CpuBoost.capped_second_core_snapshot.orig_policy 1).max = 400000 ∧
    (∃ s2, CpuBoost.cpu_boost_main CpuBoost.capped_second_core_requested = some s2 ∧
      CpuBoost.floor s2 0 = some 392000) ∧
    (∃ s2, CpuBoost.cpu_boost_main CpuBoost.capped_second_core_requested = some s2 ∧
      CpuBoost.floor s2 1 = CpuBoost.floor CpuBoost.capped_second_core_requested 1) := by
  have hs1 : CpuBoost.snapshot_unless_override CpuBoost.capped_second_core_requested
      = some CpuBoost.capped_second_core_snapshot :=
    CpuBoost.save_loop_eq [0, 1] CpuBoost.capped_second_core_requested (by decide)
  refine ⟨rfl, hs1, rfl, rfl, rfl, ?_, ?_⟩
  · obtain ⟨s2, h, _, h2, _⟩ := clamp_rule_for_reached_cores
      CpuBoost.capped_second_core_requested CpuBoost.capped_second_core_snapshot 0 [] [1]
      rfl hs1 (by decide) rfl (by decide) (by decide)
    exact ⟨s2, h, h2 (by decide)⟩
  · obtain ⟨s2, h, _, _, h3⟩ := clamp_rule_for_reached_cores
      CpuBoost.capped_second_core_requested CpuBoost.capped_second_core_snapshot 1 [0] []
      rfl hs1 (by decide) rfl (by decide) (by decide)
    exact ⟨s2, h, h3 (by decide)⟩

/-- C2, as the claim states it, fails: with two cores whose floors are 300000 and
400000 (no retained policy), `cpu_boost_timeout(800, 200)`, the apply step and
the restore step leave core 1 with the floor 300000, CPU0's floor, not the
400000 it had before the call: the snapshot of a core without a retained policy
is taken from CPU0's policy. -/
theorem timed_boost_restores_cpu0_floor_on_other_core :
    CpuBoost.two_cores_uneven.init_done ≠ 0 ∧ CpuBoost.two_cores_uneven.enabled ≠ 0 ∧
    CpuBoost.two_cores_uneven.cpu_boosted = 0 ∧ CpuBoost.two_cores_uneven.boost_override = 0 ∧
    CpuBoost.two_cores_uneven.boost_work = none ∧
    CpuBoost.floor CpuBoost.two_cores_uneven 0 = some 300000 ∧
    CpuBoost.floor CpuBoost.two_cores_uneven 1 = some 400000 ∧
    (CpuBoost.run_boost_work (CpuBoost.cpu_boost_timeout CpuBoost.two_cores_uneven 800 200)).map
      (fun s => (CpuBoost.floor s 0, CpuBoost.floor s 1, s.cpu_boosted, s.boost_work))
      = some (some 800000, some 800000, 1, some 200) ∧
    ((CpuBoost.run_boost_work (CpuBoost.cpu_boost_timeout CpuBoost.two_cores_uneven 800 200)).bind
      CpuBoost.run_boost_work).map
      (fun s => (CpuBoost.floor s 0, CpuBoost.floor s 1, s.cpu_boosted))
      = some (some 300000, some 300000, 0) := by
  decide

/-- C2, amended: in every idle, initialised, enabled state of `cpu_boost.c` in which
every possible core has a policy, the online cores are possible ones, every
possible core's floor equals the value the snapshot takes for it (its retained
minimum when it has a retained policy, CPU0's floor otherwise) and no online
core's snapshot ceiling is at most 486000 and reached by the nonzero target, for every
`freq_mhz` and every `duration_ms > 0`: `cpu_boost_timeout(freq_mhz, duration_ms)`,
the deferred step (apply, which queues the expiry after `duration_ms`) and the
deferred step at expiry (restore) leave every core's floor equal to the value it
had before the call, with `cpu_boosted = 0`, `boost_override = 0`,
`boost_duration_ms = 0` and no work queued. -/
theorem timed_boost_restores_floors (s : CpuBoost.State) (freq_mhz duration_ms : Nat)
    (hinit : s.init_done ≠ 0) (hen : s.enabled ≠ 0)
    (hidle : s.cpu_boosted = 0 ∧ s.boost_override = 0 ∧ s.boost_work = none)
    (hdur : duration_ms > 0)
    (hpol : ∀ c, c ∈ s.cpu_possible → s.policy c ≠ none)
    (hon : ∀ c, c ∈ s.cpu_online → c ∈ s.cpu_possible)
    (hcap : ∀ c, c ∈ s.cpu_possible →
      (CpuBoost.captured s c).map Prod.fst = CpuBoost.floor s c)
    (hno : ∀ c mm, c ∈ s.cpu_online → CpuBoost.captured s c = some mm →
      ¬ ((freq_mhz * 1000) % 4294967296 ≠ 0 ∧ (freq_mhz * 1000) % 4294967296 ≥ mm.2 ∧
          mm.2 ≤ 486000)) :
    ∃ s2 s3,
      CpuBoost.run_boost_work (CpuBoost.cpu_boost_timeout s freq_mhz duration_ms) = some s2 ∧
      s2.cpu_boosted = 1 ∧ s2.boost_work = some duration_ms ∧
      CpuBoost.run_boost_work s2 = some s3 ∧
      (∀ c, CpuBoost.floor s3 c = CpuBoost.floor s c) ∧
      s3.cpu_boosted = 0 ∧ s3.boost_override = 0 ∧ s3.boost_duration_ms = 0 ∧
      s3.boost_work = none := by
  obtain ⟨hb, hov, hw⟩ := hidle
  have hcapne : ∀ c, c ∈ s.cpu_possible → CpuBoost.captured s c ≠ none := by
    intro c hc hnone
    have h1 := hcap c hc
    obtain ⟨p, hp⟩ := Option.ne_none_iff_exists'.mp (hpol c hc)
    rw [hnone] at h1
    simp [CpuBoost.floor, hp] at h1
  have e0 : CpuBoost.run_boost_work (CpuBoost.cpu_boost_timeout s freq_mhz duration_ms) =
      CpuBoost.cpu_boost_main
        { s with boost_freq_khz := (freq_mhz * 1000) % 4294967296,
                 boost_duration_ms := duration_ms, boost_work := none } := by
    simp [CpuBoost.run_boost_work, CpuBoost.cpu_boost_timeout, CpuBoost.schedule_eq, hinit, hen,
      hb, hw]
  have hs1 : CpuBoost.snapshot_unless_override
      { s with boost_freq_khz := (freq_mhz * 1000) % 4294967296,
               boost_duration_ms := duration_ms, boost_work := none } =
      some { s with boost_freq_khz := (freq_mhz * 1000) % 4294967296,
                    boost_duration_ms := duration_ms, boost_work := none,
                    orig_policy := (CpuBoost.snapshot s s.cpu_possible) } := by
    simp only [CpuBoost.snapshot_unless_override, hov, if_true, CpuBoost.save_original_freq_limits]
    exact CpuBoost.save_loop_eq s.cpu_possible _ hcapne
  have hnoab : (freq_mhz * 1000) % 4294967296 ≠ 0 → ∀ c, c ∈ s.cpu_online → CpuBoost.aborts
      { s with boost_freq_khz := (freq_mhz * 1000) % 4294967296,
               boost_duration_ms := duration_ms, boost_work := none,
               orig_policy := (CpuBoost.snapshot s s.cpu_possible) } c = false := by
    intro hF c hc
    obtain ⟨mm, hmm⟩ := Option.ne_none_iff_exists'.mp (hcapne c (hon c hc))
    have := hno c mm hc hmm
    simp only [CpuBoost.aborts, CpuBoost.snapshot, hon c hc, if_true, hmm,
      decide_eq_false_iff_not]
    exact fun h => this ⟨hF, h⟩
  have e1 := CpuBoost.apply_step_completes
    { s with boost_freq_khz := (freq_mhz * 1000) % 4294967296,
             boost_duration_ms := duration_ms, boost_work := none }
    { s with boost_freq_khz := (freq_mhz * 1000) % 4294967296,
             boost_duration_ms := duration_ms, boost_work := none,
             orig_policy := (CpuBoost.snapshot s s.cpu_possible) }
    hb hs1 (fun c hc => hpol c (hon c hc)) hnoab
  have hd : duration_ms ≠ 0 := by omega
  rw [CpuBoost.cpu_boost_main_tail_eq] at e1
  simp only [ne_eq, hd, not_false_eq_true, if_true, Option.getD_none] at e1
  obtain ⟨s2, hs2, h2b, h2w, h2o, h2c, h2p⟩ : ∃ s2 : CpuBoost.State,
      CpuBoost.cpu_boost_main
        { s with boost_freq_khz := (freq_mhz * 1000) % 4294967296,
                 boost_duration_ms := duration_ms, boost_work := none } = some s2 ∧
      s2.cpu_boosted = 1 ∧ s2.boost_work = some duration_ms ∧
      s2.orig_policy = CpuBoost.snapshot s s.cpu_possible ∧
      s2.cpu_possible = s.cpu_possible ∧
      (∀ c, (s2.policy c = s.policy c ∨
        ∃ v, s2.policy c = CpuBoost.written v s.cpu_online s.policy c)) := by
    refine ⟨_, e1, rfl, rfl, rfl, rfl, ?_⟩
    intro c
    simp only
    split_ifs
    · exact Or.inl rfl
    · exact Or.inr ⟨_, rfl⟩
  have hpol2 : ∀ c, c ∈ s.cpu_possible → s2.policy c ≠ none := by
    intro c hc
    rcases h2p c with h | ⟨v, h⟩
    · rw [h]; exact hpol c hc
    · rw [h]; exact CpuBoost.written_ne_none _ _ _ c (hpol c hc)
  have e3 : CpuBoost.run_boost_work s2 = some
      { s2 with boost_work := none,
                policy := (CpuBoost.written (fun c => (s2.orig_policy c).min) s2.cpu_possible
                  s2.policy),
                boost_duration_ms := 0, cpu_boosted := 0, boost_override := 0 } := by
    simp only [CpuBoost.run_boost_work, h2w]
    exact CpuBoost.restore_step { s2 with boost_work := none } (by simp [h2b])
      (by rw [h2c]; exact hpol2)
  refine ⟨s2, _, e0.trans hs2, h2b, h2w, e3, ?_, rfl, rfl, rfl, rfl⟩
  intro c
  simp only [CpuBoost.floor, CpuBoost.floor_written, h2c, h2o]
  by_cases hc : c ∈ s.cpu_possible
  · obtain ⟨mm, hmm⟩ := Option.ne_none_iff_exists'.mp (hcapne c hc)
    obtain ⟨p, hp⟩ := Option.ne_none_iff_exists'.mp (hpol c hc)
    obtain ⟨q, hq⟩ := Option.ne_none_iff_exists'.mp (hpol2 c hc)
    have h1 := hcap c hc
    simp only [hmm, Option.map_some', CpuBoost.floor, hp, Option.some.injEq] at h1
    simp only [hc, if_true, CpuBoost.snapshot, hmm, hp, hq, Option.map_some', h1]
  · have hc2 : c ∉ s.cpu_online := fun h => hc (hon c h)
    simp only [hc, if_false]
    rcases h2p c with h | ⟨v, h⟩
    · rw [h]
    · rw [h, CpuBoost.written_not_mem _ _ _ c hc2]

/-- Witness of C2 (amended): `cpu_boost_timeout(800, 200)` on two cores that share
the floor 300000 and the ceiling 1500000. -/
theorem timed_boost_restores_floors_witness :
    CpuBoost.two_cores.init_done ≠ 0 ∧ CpuBoost.two_cores.enabled ≠ 0 ∧
    (CpuBoost.two_cores.cpu_boosted = 0 ∧ CpuBoost.two_cores.boost_override = 0 ∧
      CpuBoost.two_cores.boost_work = none) ∧
    (∀ c, c ∈ CpuBoost.two_cores.cpu_possible →
      (CpuBoost.captured CpuBoost.two_cores c).map Prod.fst
        = CpuBoost.floor CpuBoost.two_cores c) ∧
    ∃ s2 s3,
      CpuBoost.run_boost_work (CpuBoost.cpu_boost_timeout CpuBoost.two_cores 800 200) = some s2 ∧
      s2.cpu_boosted = 1 ∧ s2.boost_work = some 200 ∧
      CpuBoost.run_boost_work s2 = some s3 ∧
      (∀ c, CpuBoost.floor s3 c = CpuBoost.floor CpuBoost.two_cores c) ∧
      s3.cpu_boosted = 0 ∧ s3.boost_override = 0 ∧ s3.boost_duration_ms = 0 ∧
      s3.boost_work = none :=
  ⟨by decide, by decide, by decide, by decide,
    timed_boost_restores_floors CpuBoost.two_cores 800 200 (by decide) (by decide) (by decide)
      (by decide) (by decide) (by decide) (by decide)
      (by
        intro c mm hc h
        have hc2 : c = 0 ∨ c = 1 := by
          have : c < 2 := by simpa [CpuBoost.two_cores, CpuBoost.boot] using hc
          omega
        rcases hc2 with rfl | rfl
        · have hm : mm = (300000, 1500000) := by
            have h2 : some mm = some (300000, 1500000) := h.symm.trans (by decide)
            exact Option.some.inj h2
          subst hm
          decide
        · have hm : mm = (300000, 1500000) := by
            have h2 : some mm = some (300000, 1500000) := h.symm.trans (by decide)
            exact Option.some.inj h2
          subst hm
          decide)⟩

/-- C3, as the claim states it, fails: in the state reached from the idle one-core
state by `cpu_boost_timeout(800, 200)`, the deferred step and
`cpu_boost_shutdown()`, a timed boost is active (`cpu_boosted = 1`) and the
enable flag is 0; `cpu_boost_timeout(900, 100)` is dropped there, and the deferred
step that follows executes `restore_original_minfreq`: the floor goes back to
300000 and `cpu_boosted` to 0, the new frequency is not applied. -/
theorem preemption_while_disabled_runs_restore :
    CpuBoost.one_core_boosted_disabled.cpu_boosted = 1 ∧
    CpuBoost.one_core_boosted_disabled.enabled = 0 ∧
    CpuBoost.floor CpuBoost.one_core_boosted_disabled 0 = some 800000 ∧
    CpuBoost.cpu_boost_timeout CpuBoost.one_core_boosted_disabled 900 100
      = CpuBoost.one_core_boosted_disabled ∧
    CpuBoost.run_boost_work
        (CpuBoost.cpu_boost_timeout CpuBoost.one_core_boosted_disabled 900 100)
      = CpuBoost.restore_original_minfreq
          { CpuBoost.one_core_boosted_disabled with boost_work := none } ∧
    (CpuBoost.run_boost_work
        (CpuBoost.cpu_boost_timeout CpuBoost.one_core_boosted_disabled 900 100)).map
      (fun s => (CpuBoost.floor s 0, s.cpu_boosted, s.boost_freq_khz))
      = some (some 300000, 0, 800000) := by
  refine ⟨rfl, rfl, by decide, rfl, rfl, by decide⟩

/-- C3, amended: in every initialised, enabled state of `cpu_boost.c` with a boost
active (`cpu_boosted` nonzero), every possible core having a policy and the
online cores being possible ones, a new `cpu_boost_timeout` or `cpu_boost` call
clears `cpu_boosted`, sets `boost_override = 1` and keeps `orig_policy`; the
deferred step that follows runs the apply loop only (no restore, no snapshot)
and keeps `orig_policy`.  When no online core's snapshot ceiling is at most
486000 and reached by the new nonzero target, that step marks the cycle active and
every online core holds the clamp of the new target, and the deferred step after
it (the restore that ends the chain) writes, for every possible core, the floor
`orig_policy[cpu].min` held before the request and clears `cpu_boosted`,
`boost_override` and `boost_duration_ms`. -/
theorem preemption_applies_without_restore (s s1 : CpuBoost.State) (freq_mhz duration_ms : Nat)
    (hinit : s.init_done ≠ 0) (hen : s.enabled ≠ 0) (hb : s.cpu_boosted ≠ 0)
    (hreq : s1 = CpuBoost.cpu_boost_timeout s freq_mhz duration_ms ∨
      s1 = CpuBoost.cpu_boost s freq_mhz)
    (hpol : ∀ c, c ∈ s.cpu_possible → s.policy c ≠ none)
    (hon : ∀ c, c ∈ s.cpu_online → c ∈ s.cpu_possible) :
    s1.cpu_boosted = 0 ∧ s1.boost_override = 1 ∧
    s1.boost_freq_khz = (freq_mhz * 1000) % 4294967296 ∧
    s1.orig_policy = s.orig_policy ∧
    CpuBoost.run_boost_work s1 =
      (CpuBoost.boost_online_cpus s1.cpu_online { s1 with boost_work := none }).map
        CpuBoost.after_loop ∧
    ∃ s2, CpuBoost.run_boost_work s1 = some s2 ∧ s2.orig_policy = s.orig_policy ∧
      ((∀ c, c ∈ s1.cpu_online →
          ¬ (s1.boost_freq_khz ≠ 0 ∧ s1.boost_freq_khz ≥ (s1.orig_policy c).max ∧
              (s1.orig_policy c).max ≤ 486000)) →
        s2.cpu_boosted = 1 ∧
        (s1.boost_freq_khz ≠ 0 → ∀ c, c ∈ s1.cpu_online →
          (s1.boost_freq_khz < (s1.orig_policy c).max →
            CpuBoost.floor s2 c = some s1.boost_freq_khz) ∧
          (s1.boost_freq_khz ≥ (s1.orig_policy c).max →
            CpuBoost.floor s2 c = some ((s1.orig_policy c).max - 108000))) ∧
        ∃ s3, CpuBoost.cpu_boost_main s2 = some s3 ∧
          (∀ c, c ∈ s.cpu_possible → CpuBoost.floor s3 c = some (s.orig_policy c).min) ∧
          s3.cpu_boosted = 0 ∧ s3.boost_override = 0 ∧ s3.boost_duration_ms = 0) := by
  have hfacts : s1.cpu_boosted = 0 ∧ s1.boost_override = 1 ∧
      s1.boost_freq_khz = (freq_mhz * 1000) % 4294967296 ∧ s1.orig_policy = s.orig_policy ∧
      s1.boost_work = some 0 ∧ s1.policy = s.policy ∧ s1.cpu_possible = s.cpu_possible ∧
      s1.cpu_online = s.cpu_online := by
    rcases hreq with h | h <;> subst h <;>
      simp [CpuBoost.cpu_boost_timeout, CpuBoost.cpu_boost, CpuBoost.schedule_eq,
        CpuBoost.cancel_delayed_work, CpuBoost.init_completion, hinit, hen, hb]
  obtain ⟨h1, h2, h3, h4, h5, h6, h7, h8⟩ := hfacts
  have hrun : CpuBoost.run_boost_work s1
      = CpuBoost.cpu_boost_main { s1 with boost_work := none } := by
    simp only [CpuBoost.run_boost_work, h5]
  obtain ⟨hmain, s2, hs2, ho2, hrest⟩ := CpuBoost.preempting_apply_step
    { s1 with boost_work := none } h1 (by simp [h2])
    (by intro c hc; rw [h6]; exact hpol c (by rw [← h7]; exact hc))
    (by intro c hc; rw [h7]; exact hon c (by rw [← h8]; exact hc))
  refine ⟨h1, h2, h3, h4, hrun.trans hmain, s2, hrun.trans hs2, ho2.trans h4, ?_⟩
  intro hno
  obtain ⟨hb2, hclamp, s3, hs3, hfl, hr⟩ := hrest hno
  refine ⟨hb2, hclamp, s3, hs3, ?_, hr⟩
  intro c hc
  rw [← h4]
  exact hfl c (by rw [h7]; exact hc)

/-- Witness of C3 (amended): while the timed boost of `one_core_boosted` (800 MHz)
is active, `cpu_boost_timeout(900, 100)` preempts it: the deferred step applies
900000 and keeps the snapshot, and the step after it restores the floor 300000
captured before the first boost. -/
theorem preemption_applies_without_restore_witness :
    CpuBoost.one_core_boosted.init_done ≠ 0 ∧ CpuBoost.one_core_boosted.enabled ≠ 0 ∧
    CpuBoost.one_core_boosted.cpu_boosted ≠ 0 ∧
    ∃ s2, CpuBoost.run_boost_work (CpuBoost.cpu_boost_timeout CpuBoost.one_core_boosted 900 100)
        = some s2 ∧
      s2.orig_policy = CpuBoost.one_core_boosted.orig_policy ∧ s2.cpu_boosted = 1 ∧
      CpuBoost.floor s2 0 = some 900000 ∧
      ∃ s3, CpuBoost.cpu_boost_main s2 = some s3 ∧ CpuBoost.floor s3 0 = some 300000 := by
  obtain ⟨-, -, -, -, -, s2, hs2, ho2, hrest⟩ := preemption_applies_without_restore
    CpuBoost.one_core_boosted (CpuBoost.cpu_boost_timeout CpuBoost.one_core_boosted 900 100)
    900 100 (by decide) (by decide) (by decide) (Or.inl rfl) (by decide) (by decide)
  obtain ⟨hb2, hcl, s3, hs3, hfl, -⟩ := hrest (by decide)
  exact ⟨by decide, by decide, by decide, s2, hs2, ho2, hb2,
    (hcl (by decide) 0 (by decide)).1 (by decide), s3, hs3, hfl 0 (by decide)⟩

/-- C4. Disabled gate: in a state whose enable flag is 0, every finite sequence
of `cpu_boost_timeout`, `cpu_boost` and `cpu_unboost` calls, and each single call,
returns the state it started from, so no core's floor, no flag, no snapshot, no
queued work and no completion changes; this holds for `cpu_boost.c` and for
`cpu-boost_framework.c`. -/
theorem disabled_gate_drops_every_call (s : CpuBoost.State) (t : Framework.State)
    (hs : s.enabled = 0) (ht : t.enable = 0) (cs : List Call) :
    CpuBoost.calls s cs = s ∧ Framework.calls t cs = t ∧
    (∀ cpu, CpuBoost.floor (CpuBoost.calls s cs) cpu = CpuBoost.floor s cpu) ∧
    (Framework.calls t cs).user_policy.min = t.user_policy.min ∧
    (∀ c, CpuBoost.call s c = s) ∧ (∀ c, Framework.call t c = t) := by
  refine ⟨CpuBoost.calls_disabled s hs cs, Framework.fw_calls_disabled t ht cs, ?_, ?_,
    CpuBoost.call_disabled s hs, Framework.fw_call_disabled t ht⟩
  · intro cpu
    rw [CpuBoost.calls_disabled s hs cs]
  · rw [Framework.fw_calls_disabled t ht cs]

/-- Witness of C4: the disabled one-core states and the call sequence
`cpu_boost_timeout(800, 200); cpu_boost(900); cpu_unboost()`. -/
theorem disabled_gate_drops_every_call_witness :
    CpuBoost.one_core_disabled.enabled = 0 ∧ Framework.boot_disabled.enable = 0 ∧
    CpuBoost.calls CpuBoost.one_core_disabled
      [Call.timeout 800 200, Call.boost 900, Call.unboost] = CpuBoost.one_core_disabled ∧
    Framework.calls Framework.boot_disabled
      [Call.timeout 800 200, Call.boost 900, Call.unboost] = Framework.boot_disabled :=
  ⟨rfl, rfl,
    (disabled_gate_drops_every_call CpuBoost.one_core_disabled Framework.boot_disabled rfl rfl
      [Call.timeout 800 200, Call.boost 900, Call.unboost]).1,
    (disabled_gate_drops_every_call CpuBoost.one_core_disabled Framework.boot_disabled rfl rfl
      [Call.timeout 800 200, Call.boost 900, Call.unboost]).2.1⟩

/-- C5, as the claim states it, fails: in the initialised, enabled, idle one-core
state `cpu_boost_timeout(0, 200)` and `cpu_boost_timeout(800, 0)` are not dropped.
The first records the duration 200, the second the target 800000 kHz, and both
queue the deferred work; the same holds in `cpu-boost_framework.c`. -/
theorem timeout_zero_argument_not_dropped :
    CpuBoost.one_core.init_done ≠ 0 ∧ CpuBoost.one_core.enabled ≠ 0 ∧
    CpuBoost.one_core.boost_duration_ms = 0 ∧ CpuBoost.one_core.boost_work = none ∧
    (CpuBoost.cpu_boost_timeout CpuBoost.one_core 0 200).boost_duration_ms = 200 ∧
    (CpuBoost.cpu_boost_timeout CpuBoost.one_core 0 200).boost_work = some 0 ∧
    (CpuBoost.cpu_boost_timeout CpuBoost.one_core 800 0).boost_freq_khz = 800000 ∧
    (CpuBoost.cpu_boost_timeout CpuBoost.one_core 800 0).boost_work = some 0 ∧
    (Framework.boot 300000 1500000 0).init_done ≠ 0 ∧
    (Framework.boot 300000 1500000 0).enable ≠ 0 ∧
    (Framework.boot 300000 1500000 0).boost_work = none ∧
    (Framework.cpu_boost_timeout (Framework.boot 300000 1500000 0) 0 200).boost_duration_ms
      = 200 ∧
    (Framework.cpu_boost_timeout (Framework.boot 300000 1500000 0) 0 200).boost_work
      = some 0 := by
  decide

/-- C5, amended: `cpu_boost_timeout` validates nothing.  In every initialised,
enabled state, for all arguments (also `freq = 0` or `duration_ms = 0`), it records
the target frequency (`freq_mhz * 1000 mod 2^32` in `cpu_boost.c`, `freq` in
`cpu-boost_framework.c`) and the duration, and leaves the deferred work queued. -/
theorem timeout_records_any_arguments (s : CpuBoost.State) (t : Framework.State)
    (freq duration_ms : Nat)
    (hs : s.init_done ≠ 0 ∧ s.enabled ≠ 0) (ht : t.init_done ≠ 0 ∧ t.enable ≠ 0) :
    (CpuBoost.cpu_boost_timeout s freq duration_ms).boost_freq_khz
      = (freq * 1000) % 4294967296 ∧
    (CpuBoost.cpu_boost_timeout s freq duration_ms).boost_duration_ms = duration_ms ∧
    (CpuBoost.cpu_boost_timeout s freq duration_ms).boost_work ≠ none ∧
    (Framework.cpu_boost_timeout t freq duration_ms).boost_freq = freq ∧
    (Framework.cpu_boost_timeout t freq duration_ms).boost_duration_ms = duration_ms ∧
    (Framework.cpu_boost_timeout t freq duration_ms).boost_work ≠ none := by
  obtain ⟨hs1, hs2⟩ := hs
  obtain ⟨ht1, ht2⟩ := ht
  refine ⟨?_, ?_, ?_, ?_, ?_, ?_⟩
  all_goals
    first
    | (simp only [CpuBoost.cpu_boost_timeout, CpuBoost.schedule_delayed_work,
        CpuBoost.cancel_delayed_work, hs1, hs2, ne_eq, not_false_eq_true, and_self, if_true]
       split_ifs <;> (try split) <;> simp_all)
    | (simp only [Framework.cpu_boost_timeout, Framework.schedule_delayed_work,
        Framework.cancel_delayed_work, ht1, ht2, ne_eq, not_false_eq_true, and_self, if_true]
       split_ifs <;> (try split) <;> simp_all)

/-- Witness of C5 (amended): `cpu_boost_timeout(0, 200)` in the one-core states. -/
theorem timeout_records_any_arguments_witness :
    (CpuBoost.one_core.init_done ≠ 0 ∧ CpuBoost.one_core.enabled ≠ 0) ∧
    ((Framework.boot 300000 1500000 0).init_done ≠ 0 ∧
      (Framework.boot 300000 1500000 0).enable ≠ 0) ∧
    (CpuBoost.cpu_boost_timeout CpuBoost.one_core 0 200).boost_duration_ms = 200 ∧
    (Framework.cpu_boost_timeout (Framework.boot 300000 1500000 0) 0 200).boost_duration_ms
      = 200 :=
  ⟨by decide, by decide,
    (timeout_records_any_arguments CpuBoost.one_core (Framework.boot 300000 1500000 0) 0 200
      (by decide) (by decide)).2.1,
    (timeout_records_any_arguments CpuBoost.one_core (Framework.boot 300000 1500000 0) 0 200
      (by decide) (by decide)).2.2.2.2.1⟩

/-- C6 at its failing input in `cpu_boost.c`: from the idle one-core state,
`cpu_boost_timeout(800, 200)` and the deferred step leave a timed boost active
(`cpu_boosted = 1`, `boost_duration_ms = 200`); `cpu_boost(900)` then preempts it
and `boost_duration_ms` is still 200, not 0, so the next deferred step does not
wait on the completion: it queues a timed expiry after 200 ms. -/
theorem cpu_boost_preempting_timed_boost_keeps_duration :
    (CpuBoost.run_boost_work (CpuBoost.cpu_boost_timeout CpuBoost.one_core 800 200)).map
      (fun s => (s.init_done, s.enabled, s.cpu_boosted, s.boost_duration_ms))
      = some (1, 1, 1, 200) ∧
    (CpuBoost.run_boost_work (CpuBoost.cpu_boost_timeout CpuBoost.one_core 800 200)).map
      (fun s => (CpuBoost.cpu_boost s 900).boost_duration_ms) = some 200 ∧
    ((CpuBoost.run_boost_work (CpuBoost.cpu_boost_timeout CpuBoost.one_core 800 200)).bind
      (fun s => CpuBoost.run_boost_work (CpuBoost.cpu_boost s 900))).map
      (fun s => (s.waiting, s.boost_work, CpuBoost.floor s 0))
      = some (false, some 200, some 900000) := by
  decide

/-- C7, as the claim states it, fails: in the idle state with CPU0 floor 900000,
ceiling 1500000 and `minfreq_orig = 0` (its value at module load), the sequence
`cpu_boost(900000)`, deferred step, `cpu_unboost()`, release of the waiting step,
deferred step ends with CPU0's floor equal to 0, not 900000: the snapshot is
skipped because the floor equals the requested frequency. -/
theorem signal_boost_same_floor_not_restored :
    (Framework.boot 900000 1500000 0).user_policy.min = 900000 ∧
    (Framework.boot 900000 1500000 0).user_policy.min
      ≤ (Framework.boot 900000 1500000 0).user_policy.max ∧
    (Framework.run_boost_work (Framework.cpu_boost (Framework.boot 900000 1500000 0) 900000)
      ).user_policy.min = 900000 ∧
    (Framework.run_boost_work (Framework.cpu_boost_main_resume (Framework.cpu_unboost
      (Framework.run_boost_work (Framework.cpu_boost (Framework.boot 900000 1500000 0) 900000))))
      ).user_policy.min = 0 := by
  simp [Framework.boot, Framework.cpu_boost, Framework.run_boost_work, Framework.cpu_boost_main,
    Framework.cpu_boost_main_resume, Framework.cpu_unboost, Framework.fw_schedule_eq,
    Framework.init_completion, Framework.complete, Framework.cpu_boost_main_tail,
    Framework.wait_for_completion, Framework.msecs_to_jiffies,
    Framework.restore_original_minfreq, Framework.save_orig_minfreq_ready,
    Framework.set_new_minfreq_ready]

/-- C7, amended: in every idle, initialised, enabled state of
`cpu-boost_framework.c` with the policy always available, CPU0 floor `m`, ceiling
`C`, `m ≤ C`, and every nonzero `freq` different from `m`, the sequence
`cpu_boost(freq)`, deferred step (apply, then block on the completion with no
work queued), `cpu_unboost()`, release of the blocked step (which queues the
expiry with delay 0), deferred step (restore) ends with CPU0's floor equal to `m`
and the cycle idle again. -/
theorem signal_boost_then_unboost_restores_floor (s : Framework.State) (freq : Nat)
    (hinit : s.init_done ≠ 0) (hen : s.enable ≠ 0)
    (hidle : s.cpu_boosted = 0 ∧ s.boost_override = 0 ∧ s.boost_duration_ms = 0 ∧
      s.boost_work = none ∧ s.waiting = false)
    (hready : ∀ n, s.policy_ready n = true)
    (hmc : s.user_policy.min ≤ s.user_policy.max)
    (hfreq : freq ≠ 0) (hne : freq ≠ s.user_policy.min) :
    (Framework.run_boost_work (Framework.cpu_boost s freq)).waiting = true ∧
    (Framework.run_boost_work (Framework.cpu_boost s freq)).boost_work = none ∧
    (Framework.run_boost_work (Framework.cpu_boost s freq)).cpu_boosted = 1 ∧
    (Framework.cpu_boost_main_resume (Framework.cpu_unboost
      (Framework.run_boost_work (Framework.cpu_boost s freq)))).boost_work = some 0 ∧
    (Framework.run_boost_work (Framework.cpu_boost_main_resume (Framework.cpu_unboost
      (Framework.run_boost_work (Framework.cpu_boost s freq))))).user_policy.min
      = s.user_policy.min ∧
    (Framework.run_boost_work (Framework.cpu_boost_main_resume (Framework.cpu_unboost
      (Framework.run_boost_work (Framework.cpu_boost s freq))))).cpu_boosted = 0 ∧
    (Framework.run_boost_work (Framework.cpu_boost_main_resume (Framework.cpu_unboost
      (Framework.run_boost_work (Framework.cpu_boost s freq))))).boost_work = none ∧
    (Framework.run_boost_work (Framework.cpu_boost_main_resume (Framework.cpu_unboost
      (Framework.run_boost_work (Framework.cpu_boost s freq))))).waiting = false := by
  obtain ⟨hb, ho, hd, hw, hwt⟩ := hidle
  have hne2 : ¬ s.user_policy.min = freq := fun h => hne h.symm
  have hle : ¬ s.user_policy.min > s.user_policy.max := by omega
  have e1 : Framework.cpu_boost s freq =
      { s with cpu_boost_no_timeout := 0, boost_freq := freq, minfreq_inf := freq,
               boost_work := some 0 } := by
    simp [Framework.cpu_boost, Framework.fw_schedule_eq, Framework.init_completion, hinit, hen,
      hb, hw]
  rw [e1]
  by_cases h1 : freq > s.user_policy.max
  · by_cases h2 : s.user_policy.max ≤ 486000
    · simp [Framework.run_boost_work, Framework.cpu_boost_main, Framework.cpu_boost_main_resume,
        Framework.cpu_unboost, Framework.fw_schedule_eq, Framework.complete,
        Framework.cpu_boost_main_tail, Framework.wait_for_completion,
      Framework.msecs_to_jiffies, Framework.restore_original_minfreq,
        Framework.save_orig_minfreq_ready, Framework.set_new_minfreq_ready,
        hinit, hen, hb, ho, hd, hw, hwt, hready, hfreq, hne2, hle, h1, h2]
    · simp [Framework.run_boost_work, Framework.cpu_boost_main, Framework.cpu_boost_main_resume,
        Framework.cpu_unboost, Framework.fw_schedule_eq, Framework.complete,
        Framework.cpu_boost_main_tail, Framework.wait_for_completion,
      Framework.msecs_to_jiffies, Framework.restore_original_minfreq,
        Framework.save_orig_minfreq_ready, Framework.set_new_minfreq_ready,
        hinit, hen, hb, ho, hd, hw, hwt, hready, hfreq, hne2, hle, h1, h2]
  · simp [Framework.run_boost_work, Framework.cpu_boost_main, Framework.cpu_boost_main_resume,
      Framework.cpu_unboost, Framework.fw_schedule_eq, Framework.complete,
      Framework.cpu_boost_main_tail, Framework.wait_for_completion,
      Framework.msecs_to_jiffies, Framework.restore_original_minfreq,
      Framework.save_orig_minfreq_ready, Framework.set_new_minfreq_ready,
      hinit, hen, hb, ho, hd, hw, hwt, hready, hfreq, hne2, hle, h1]

/-- Witness of C7 (amended): `cpu_boost(900)` then `cpu_unboost()` from the idle
state with floor 300000 and ceiling 1500000. -/
theorem signal_boost_then_unboost_restores_floor_witness :
    (Framework.boot 300000 1500000 0).init_done ≠ 0 ∧
    (Framework.boot 300000 1500000 0).enable ≠ 0 ∧
    ((Framework.boot 300000 1500000 0).cpu_boosted = 0 ∧
      (Framework.boot 300000 1500000 0).boost_override = 0 ∧
      (Framework.boot 300000 1500000 0).boost_duration_ms = 0 ∧
      (Framework.boot 300000 1500000 0).boost_work = none ∧
      (Framework.boot 300000 1500000 0).waiting = false) ∧
    (∀ n, (Framework.boot 300000 1500000 0).policy_ready n = true) ∧
    (Framework.boot 300000 1500000 0).user_policy.min
      ≤ (Framework.boot 300000 1500000 0).user_policy.max ∧
    900 ≠ 0 ∧ 900 ≠ (Framework.boot 300000 1500000 0).user_policy.min ∧
    (Framework.run_boost_work (Framework.cpu_boost_main_resume (Framework.cpu_unboost
      (Framework.run_boost_work (Framework.cpu_boost (Framework.boot 300000 1500000 0) 900))))
      ).user_policy.min = (Framework.boot 300000 1500000 0).user_policy.min :=
  ⟨by decide, by decide, by decide, fun _ => rfl, by decide, by decide, by decide,
    (signal_boost_then_unboost_restores_floor (Framework.boot 300000 1500000 0) 900
      (by decide) (by decide) (by decide) (fun _ => rfl) (by decide) (by decide)
      (by decide)).2.2.2.2.1⟩

/-- C8, as the claim states it, fails: with three online cores whose ceilings are
1500000, 400000 and 1500000 and the request 600000 kHz, the apply step returns at
core 1 (ceiling at most 486000): core 2, whose own ceiling admits the boost,
receives no floor in that step, and the whole cycle is cancelled (`cpu_boosted`
stays 0, no work is queued). -/
theorem abort_cancels_later_cores_too :
    CpuBoost.capped_middle_core.cpu_online = [0, 1, 2] ∧
    CpuBoost.ceiling CpuBoost.capped_middle_core 1 = some 400000 ∧
    CpuBoost.ceiling CpuBoost.capped_middle_core 2 = some 1500000 ∧
    CpuBoost.floor CpuBoost.capped_middle_core 2 = some 200000 ∧
    (CpuBoost.cpu_boost_timeout CpuBoost.capped_middle_core 600 200).boost_freq_khz = 600000 ∧
    (CpuBoost.run_boost_work (CpuBoost.cpu_boost_timeout CpuBoost.capped_middle_core 600 200)).map
      (fun s => ((s.orig_policy 1).max, (s.orig_policy 2).max, CpuBoost.floor s 1,
        CpuBoost.floor s 2, s.cpu_boosted, s.boost_work))
      = some (400000, 1500000, some 200000, some 200000, 0, none) := by
  refine ⟨by decide, by decide, by decide, by decide, by decide, by decide⟩

/-- C8, amended: the abort ends the apply step for the whole cycle.  In the apply
step of `cpu_boost_main` with a nonzero target `F`, every online core having a
policy, let `cpu` be the first online core (in iteration order) whose snapshot
ceiling is at most 486000 and reached by `F`.  Then the step returns there: the
floor of `cpu` and of every core not visited before it is untouched,
`boost_duration_ms` and `boost_override` are 0, `cpu_boosted` stays 0, and no
work is queued and nothing waits beyond what the state held before. -/
theorem abort_ends_apply_step (s s1 : CpuBoost.State) (cpu : Nat) (pre post : List Nat)
    (hb : s.cpu_boosted = 0)
    (hs1 : CpuBoost.snapshot_unless_override s = some s1)
    (hF : s.boost_freq_khz ≠ 0)
    (hon : s.cpu_online = pre ++ cpu :: post)
    (hpol : ∀ c, c ∈ s.cpu_online → s.policy c ≠ none)
    (hpre : ∀ c, c ∈ pre →
      ¬ (s.boost_freq_khz ≥ (s1.orig_policy c).max ∧ (s1.orig_policy c).max ≤ 486000))
    (hab : s.boost_freq_khz ≥ (s1.orig_policy cpu).max ∧ (s1.orig_policy cpu).max ≤ 486000) :
    ∃ s2, CpuBoost.cpu_boost_main s = some s2 ∧
      CpuBoost.floor s2 cpu = CpuBoost.floor s cpu ∧
      (∀ c, c ∉ pre → CpuBoost.floor s2 c = CpuBoost.floor s c) ∧
      s2.boost_duration_ms = 0 ∧ s2.boost_override = 0 ∧ s2.cpu_boosted = 0 ∧
      s2.boost_work = s.boost_work ∧ s2.waiting = s.waiting := by
  have hfr := CpuBoost.snapshot_unless_override_frame s s1 hs1
  have hp : s1.policy = s.policy := by rw [hfr]
  have hf : s1.boost_freq_khz = s.boost_freq_khz := by rw [hfr]
  have ho : s1.cpu_online = s.cpu_online := by rw [hfr]
  have hb1 : s1.cpu_boosted = 0 := by rw [hfr]; exact hb
  have hw1 : s1.boost_work = s.boost_work := by rw [hfr]
  have hwt1 : s1.waiting = s.waiting := by rw [hfr]
  have hF1 : s1.boost_freq_khz ≠ 0 := by rw [hf]; exact hF
  have hpol1 : ∀ c, c ∈ s1.cpu_online → s1.policy c ≠ none := by rw [ho, hp]; exact hpol
  obtain ⟨s2, hs2, hpol2, -, -, -, hret⟩ := CpuBoost.apply_loop_outcome s1 hF1 hpol1
  have hpreP : ∀ a, a ∈ pre → (!CpuBoost.aborts s1 a) = true := by
    intro a ha
    have := hpre a ha
    simp only [CpuBoost.aborts, hf, Bool.not_eq_true', decide_eq_false_iff_not]
    exact this
  have hc : ¬ ((!CpuBoost.aborts s1 cpu) = true) := by
    simp only [CpuBoost.aborts, hf, Bool.not_eq_true', decide_eq_false_iff_not, not_not]
    exact hab
  have htw : s1.cpu_online.takeWhile (fun c => !CpuBoost.aborts s1 c) = pre := by
    rw [ho, hon, List.takeWhile_append_of_pos hpreP,
      @List.takeWhile_cons_of_neg Nat (fun c => !CpuBoost.aborts s1 c) cpu post hc,
      List.append_nil]
  have hnall : ¬ (s1.cpu_online.all (fun c => !CpuBoost.aborts s1 c)) = true := by
    intro hall
    have hmem : cpu ∈ s1.cpu_online := by
      rw [ho, hon]
      exact List.mem_append_right _ (List.mem_cons_self cpu post)
    exact hc ((List.all_eq_true.mp hall) cpu hmem)
  have hs2eq := hret hnall
  have hunch : ∀ c, c ∉ pre → CpuBoost.floor s2 c = CpuBoost.floor s c := by
    intro c hcn
    unfold CpuBoost.floor
    rw [hpol2, htw, CpuBoost.written_not_mem _ _ _ c hcn, hp]
  have hcpu : cpu ∉ pre := fun hin => hpre cpu hin hab
  refine ⟨s2, ?_, hunch cpu hcpu, hunch, ?_, ?_, ?_, ?_, ?_⟩
  · simp only [CpuBoost.cpu_boost_main, hb, ne_eq, not_true_eq_false, if_false, hs1,
      Option.some_bind, hs2]
  · rw [hs2eq]
  · rw [hs2eq]
  · rw [hs2eq]; exact hb1
  · rw [hs2eq]; exact hw1
  · rw [hs2eq]; exact hwt1

/-- Witness of C8 (amended): ceilings 1500000, 400000, 1500000 and the request
600000 kHz: the step returns at core 1, cores 1 and 2 keep their floor. -/
theorem abort_ends_apply_step_witness :
    CpuBoost.capped_middle_core_requested.cpu_boosted = 0 ∧
    CpuBoost.snapshot_unless_override CpuBoost.capped_middle_core_requested
      = some CpuBoost.capped_middle_core_snapshot ∧
    CpuBoost.capped_middle_core_requested.boost_freq_khz = 600000 ∧
    (CpuBoost.capped_middle_core_snapshot.orig_policy 1).max = 400000 ∧
    ∃ s2, CpuBoost.cpu_boost_main CpuBoost.capped_middle_core_requested = some s2 ∧
      CpuBoost.floor s2 1 = some 200000 ∧ CpuBoost.floor s2 2 = some 200000 ∧
      s2.cpu_boosted = 0 ∧ s2.boost_work = none := by
  have hs1 : CpuBoost.snapshot_unless_override CpuBoost.capped_middle_core_requested
      = some CpuBoost.capped_middle_core_snapshot :=
    CpuBoost.save_loop_eq [0, 1, 2] CpuBoost.capped_middle_core_requested (by decide)
  obtain ⟨s2, h, h1, h2, -, -, h3, h4, -⟩ := abort_ends_apply_step
    CpuBoost.capped_middle_core_requested CpuBoost.capped_middle_core_snapshot 1 [0] [2]
    rfl hs1 (by decide) rfl (by decide) (by decide) (by decide)
  exact ⟨rfl, hs1, rfl, rfl, s2, h, h1, h2 2 (by decide), h3, h4⟩

/-- C9 at its failing input in `cpu_boost.c`: one core with floor 200000 and the
fixed ceiling 400000, policy always available, idle and unboosted at the start.
After `cpu_boost_timeout(300, 200)`, the deferred step (floor 300000 applied),
`cpu_boost_timeout(600, 200)` (preemption) and the deferred step (which aborts,
the ceiling being at most 486000), no deferred work is queued and nothing waits,
`cpu_boosted = 0`, yet the floor is 300000 and not the pre-boost 200000: the
applied boost is left without its restore. -/
theorem abort_after_preemption_leaves_boost_unrestored :
    CpuBoost.one_core_low_ceiling.cpu_boosted = 0 ∧
    CpuBoost.one_core_low_ceiling.boost_override = 0 ∧
    CpuBoost.one_core_low_ceiling.boost_work = none ∧
    CpuBoost.one_core_low_ceiling.waiting = false ∧
    CpuBoost.floor CpuBoost.one_core_low_ceiling 0 = some 200000 ∧
    (CpuBoost.run CpuBoost.one_core_low_ceiling
      [Step.api (Call.timeout 300 200), Step.work]).map
      (fun s => (CpuBoost.floor s 0, s.cpu_boosted, s.boost_work))
      = some (some 300000, 1, some 200) ∧
    (CpuBoost.run CpuBoost.one_core_low_ceiling
      [Step.api (Call.timeout 300 200), Step.work, Step.api (Call.timeout 600 200),
        Step.work]).map
      (fun s => (s.cpu_boosted, s.boost_override, s.boost_work, s.waiting))
      = some (0, 0, none, false) ∧
    (CpuBoost.run CpuBoost.one_core_low_ceiling
      [Step.api (Call.timeout 300 200), Step.work, Step.api (Call.timeout 600 200),
        Step.work]).map
      (fun s => (CpuBoost.floor s 0, CpuBoost.ceiling s 0))
      = some (some 300000, some 400000) := by
  refine ⟨by decide, by decide, by decide, by decide, by decide, by decide, by decide,
    by decide⟩

/-- C10, as the claim states it, fails: when every lookup of CPU0's policy fails,
`save_orig_minfreq` and `set_new_minfreq` each call `cpufreq_cpu_get(0)` five
times before giving up, not four. -/
theorem retry_gives_up_after_five_lookups_not_four :
    (∀ n, Framework.boot_unavailable.policy_ready n = false) ∧
    Framework.boot_unavailable.lookups = 0 ∧
    (Framework.save_orig_minfreq Framework.boot_unavailable).lookups = 5 ∧
    (Framework.set_new_minfreq Framework.boot_unavailable 900000).lookups = 5 := by
  refine ⟨fun _ => rfl, rfl, ?_, ?_⟩
  · simp [Framework.save_orig_minfreq, Framework.save_orig_minfreq_retry,
      Framework.cpufreq_cpu_get, Framework.looked_up, Framework.boot_unavailable,
      Framework.boot]
  · simp [Framework.set_new_minfreq, Framework.set_new_minfreq_retry,
      Framework.cpufreq_cpu_get, Framework.looked_up, Framework.boot_unavailable,
      Framework.boot]

/-- C10, amended: let the next `j` lookups of CPU0's policy fail, `j ≤ 5`, the
lookup after them succeeding when `j < 5`.  When `j = 5` (every attempt fails),
`save_orig_minfreq` and `set_new_minfreq` each make exactly 5 lookups (the first
try and 4 retries), then return with everything else unchanged (`minfreq_orig`,
the floor, `boost_duration_ms`, `boost_override`, `cpu_boosted`).  When `j < 5`
they make `j + 1` lookups and proceed with the policy: `save_orig_minfreq`
records the floor unless it equals `minfreq_inf`, `set_new_minfreq` writes the
clamped floor or aborts. -/
theorem retry_five_lookups_then_give_up (s : Framework.State) (minfreq j : Nat) (hj : j ≤ 5)
    (hfail : ∀ i, i < j → s.policy_ready (s.lookups + i) = false)
    (hok : j < 5 → s.policy_ready (s.lookups + j) = true) :
    Framework.save_orig_minfreq s =
      (if j = 5 then { s with lookups := s.lookups + 5 }
       else if s.user_policy.min ≠ s.minfreq_inf then
         { s with lookups := s.lookups + (j + 1), minfreq_orig := s.user_policy.min }
       else { s with lookups := s.lookups + (j + 1) }) ∧
    Framework.set_new_minfreq s minfreq =
      (if j = 5 then { s with lookups := s.lookups + 5 }
       else if minfreq > s.user_policy.max then
         if s.user_policy.max ≤ 486000 then
           { s with lookups := s.lookups + (j + 1), boost_duration_ms := 0,
                    boost_override := 0 }
         else
           { s with lookups := s.lookups + (j + 1),
                    user_policy := ⟨sub32 s.user_policy.max 108000, s.user_policy.max⟩ }
       else { s with lookups := s.lookups + (j + 1),
                     user_policy := ⟨minfreq, s.user_policy.max⟩ }) := by
  by_cases h5 : j = 5
  · subst h5
    simp only [if_true]
    exact ⟨Framework.save_retry_all_fail 4 s 0 rfl hfail,
      Framework.set_retry_all_fail 4 s minfreq 0 rfl hfail⟩
  · have hlt : j < 5 := by omega
    simp only [h5, if_false]
    exact ⟨Framework.save_retry_success j s 0 (by omega) hfail (hok hlt),
      Framework.set_retry_success j s minfreq 0 (by omega) hfail (hok hlt)⟩

/-- Witness of C10 (amended): the state whose policy lookup always fails (`j = 5`),
and the state whose first two lookups fail and whose third succeeds (`j = 2`). -/
theorem retry_five_lookups_then_give_up_witness :
    ((5 ≤ 5) ∧
     (∀ i, i < 5 → Framework.boot_unavailable.policy_ready
       (Framework.boot_unavailable.lookups + i) = false) ∧
     (5 < 5 → Framework.boot_unavailable.policy_ready
       (Framework.boot_unavailable.lookups + 5) = true) ∧
     Framework.save_orig_minfreq Framework.boot_unavailable =
       { Framework.boot_unavailable with lookups := 5 } ∧
     Framework.set_new_minfreq Framework.boot_unavailable 900000 =
       { Framework.boot_unavailable with lookups := 5 }) ∧
    ((2 ≤ 5) ∧
     (∀ i, i < 2 → Framework.boot_flaky.policy_ready (Framework.boot_flaky.lookups + i)
       = false) ∧
     (2 < 5 → Framework.boot_flaky.policy_ready (Framework.boot_flaky.lookups + 2) = true) ∧
     Framework.save_orig_minfreq Framework.boot_flaky =
       { Framework.boot_flaky with lookups := 3, minfreq_orig := 300000 } ∧
     Framework.set_new_minfreq Framework.boot_flaky 900000 =
       { Framework.boot_flaky with lookups := 3, user_policy := ⟨900000, 1500000⟩ }) :=
  ⟨⟨Nat.le_refl 5, fun _ _ => rfl, fun h => absurd h (by decide),
    (retry_five_lookups_then_give_up Framework.boot_unavailable 900000 5 (Nat.le_refl 5)
      (fun _ _ => rfl) (fun h => absurd h (by decide))).1,
    (retry_five_lookups_then_give_up Framework.boot_unavailable 900000 5 (Nat.le_refl 5)
      (fun _ _ => rfl) (fun h => absurd h (by decide))).2⟩,
   ⟨by decide, by decide, fun _ => rfl,
    (retry_five_lookups_then_give_up Framework.boot_flaky 900000 2 (by decide)
      (by decide) (fun _ => rfl)).1,
    (retry_five_lookups_then_give_up Framework.boot_flaky 900000 2 (by decide)
      (by decide) (fun _ => rfl)).2⟩⟩

/-- C11. Enable/disable frame, in `cpu_boost.c` and in `cpu-boost_framework.c`: in
an initialised state `cpu_boost_shutdown` sets the enable flag to 0 and
`cpu_boost_startup` sets it to 1, and both leave every other component as it was
(`cpu_boosted`, `boost_override`, target, duration, snapshot, floors, queued work,
completion), so an active cycle is not cancelled; in a state with
`init_done = 0` both calls return the state unchanged. -/
theorem shutdown_startup_change_only_the_flag (s u : CpuBoost.State) (t v : Framework.State)
    (hs : s.init_done ≠ 0) (hu : u.init_done = 0)
    (ht : t.init_done ≠ 0) (hv : v.init_done = 0) :
    CpuBoost.cpu_boost_shutdown s = { s with enabled := 0 } ∧
    CpuBoost.cpu_boost_startup s = { s with enabled := 1 } ∧
    (CpuBoost.cpu_boost_shutdown s).cpu_boosted = s.cpu_boosted ∧
    (CpuBoost.cpu_boost_shutdown s).boost_work = s.boost_work ∧
    (∀ cpu, CpuBoost.floor (CpuBoost.cpu_boost_shutdown s) cpu = CpuBoost.floor s cpu) ∧
    CpuBoost.cpu_boost_shutdown u = u ∧ CpuBoost.cpu_boost_startup u = u ∧
    Framework.cpu_boost_shutdown t = { t with enable := 0 } ∧
    Framework.cpu_boost_startup t = { t with enable := 1 } ∧
    (Framework.cpu_boost_shutdown t).cpu_boosted = t.cpu_boosted ∧
    (Framework.cpu_boost_shutdown t).boost_work = t.boost_work ∧
    (Framework.cpu_boost_shutdown t).user_policy = t.user_policy ∧
    Framework.cpu_boost_shutdown v = v ∧ Framework.cpu_boost_startup v = v := by
  simp [CpuBoost.cpu_boost_shutdown, CpuBoost.cpu_boost_startup, Framework.cpu_boost_shutdown,
    Framework.cpu_boost_startup, CpuBoost.floor, hs, hu, ht, hv]

/-- Witness of C11: shutdown during the active timed boost of `one_core_boosted`
keeps the boost and its queued expiry; shutdown before initialisation changes nothing. -/
theorem shutdown_startup_change_only_the_flag_witness :
    CpuBoost.one_core_boosted.init_done ≠ 0 ∧ CpuBoost.one_core_uninit.init_done = 0 ∧
    (Framework.boot 300000 1500000 0).init_done ≠ 0 ∧ Framework.boot_uninit.init_done = 0 ∧
    (CpuBoost.cpu_boost_shutdown CpuBoost.one_core_boosted).cpu_boosted
      = CpuBoost.one_core_boosted.cpu_boosted ∧
    (CpuBoost.cpu_boost_shutdown CpuBoost.one_core_boosted).boost_work
      = CpuBoost.one_core_boosted.boost_work ∧
    CpuBoost.cpu_boost_shutdown CpuBoost.one_core_uninit = CpuBoost.one_core_uninit ∧
    Framework.cpu_boost_startup Framework.boot_uninit = Framework.boot_uninit :=
  ⟨by decide, by decide, by decide, by decide,
    (shutdown_startup_change_only_the_flag CpuBoost.one_core_boosted CpuBoost.one_core_uninit
      (Framework.boot 300000 1500000 0) Framework.boot_uninit
      (by decide) (by decide) (by decide) (by decide)).2.2.1,
    (shutdown_startup_change_only_the_flag CpuBoost.one_core_boosted CpuBoost.one_core_uninit
      (Framework.boot 300000 1500000 0) Framework.boot_uninit
      (by decide) (by decide) (by decide) (by decide)).2.2.2.1,
    (shutdown_startup_change_only_the_flag CpuBoost.one_core_boosted CpuBoost.one_core_uninit
      (Framework.boot 300000 1500000 0) Framework.boot_uninit
      (by decide) (by decide) (by decide) (by decide)).2.2.2.2.2.1,
    (shutdown_startup_change_only_the_flag CpuBoost.one_core_boosted CpuBoost.one_core_uninit
      (Framework.boot 300000 1500000 0) Framework.boot_uninit
      (by decide) (by decide) (by decide) (by decide)).2.2.2.2.2.2.2.2.2.2.2.2.2⟩

/-- C12. Activity-event adapter in `cpu-boost_framework.c`: for every state and
every event `(type, code, value)`, `cpu_boost_input_event` does what the
adapter of the spec does: it has exactly the effect of
`cpu_boost_timeout(input_boost_freq, input_boost_ms)` when both parameters are
nonzero and leaves the state unchanged otherwise; the result is the same for
every other event `(type', code', value')`; and an event that arrives in an
initialised, enabled state during an active boost preempts it like a timed
request: `cpu_boosted` is cleared, `boost_override` is set, the configured target
and duration are recorded and the deferred step is queued with no delay. -/
theorem input_event_is_timed_boost_request (s : Framework.State) (type code : Nat)
    (value : Int) :
    Framework.cpu_boost_input_event s type code value = Framework.activity_event_adapter s ∧
    (s.input_boost_freq ≠ 0 ∧ s.input_boost_ms ≠ 0 →
      Framework.cpu_boost_input_event s type code value
        = Framework.cpu_boost_timeout s s.input_boost_freq s.input_boost_ms) ∧
    (¬ (s.input_boost_freq ≠ 0 ∧ s.input_boost_ms ≠ 0) →
      Framework.cpu_boost_input_event s type code value = s) ∧
    (∀ (type' code' : Nat) (value' : Int),
      Framework.cpu_boost_input_event s type' code' value'
        = Framework.cpu_boost_input_event s type code value) ∧
    (s.init_done ≠ 0 ∧ s.enable ≠ 0 → s.cpu_boosted ≠ 0 →
      s.input_boost_freq ≠ 0 ∧ s.input_boost_ms ≠ 0 →
      (Framework.cpu_boost_input_event s type code value).cpu_boosted = 0 ∧
      (Framework.cpu_boost_input_event s type code value).boost_override = 1 ∧
      (Framework.cpu_boost_input_event s type code value).boost_freq = s.input_boost_freq ∧
      (Framework.cpu_boost_input_event s type code value).boost_duration_ms
        = s.input_boost_ms ∧
      (Framework.cpu_boost_input_event s type code value).boost_work = some 0) := by
  refine ⟨rfl, ?_, ?_, fun _ _ _ => rfl, ?_⟩
  · intro h
    simp only [Framework.cpu_boost_input_event, h, ne_eq, not_false_eq_true, and_self, if_true]
  · intro h
    simp only [Framework.cpu_boost_input_event, h, if_false]
  · intro hg hb hp
    simp [Framework.cpu_boost_input_event, Framework.cpu_boost_timeout, Framework.fw_schedule_eq,
      Framework.cancel_delayed_work, hg.1, hg.2, hb, hp.1, hp.2]

/-- Witness of C12: a touch event (`EV_ABS = 3`, `ABS_MT_POSITION_X = 53`) during the
active timed boost of `boot_input_boosted` preempts it with the configured
1200000 kHz for 40 ms. -/
theorem input_event_is_timed_boost_request_witness :
    (Framework.boot_input_boosted.init_done ≠ 0 ∧ Framework.boot_input_boosted.enable ≠ 0) ∧
    Framework.boot_input_boosted.cpu_boosted ≠ 0 ∧
    (Framework.boot_input_boosted.input_boost_freq ≠ 0 ∧
      Framework.boot_input_boosted.input_boost_ms ≠ 0) ∧
    Framework.cpu_boost_input_event Framework.boot_input_boosted 3 53 512
      = Framework.cpu_boost_timeout Framework.boot_input_boosted 1200000 40 ∧
    (Framework.cpu_boost_input_event Framework.boot_input_boosted 3 53 512).cpu_boosted = 0 ∧
    (Framework.cpu_boost_input_event Framework.boot_input_boosted 3 53 512).boost_freq
      = 1200000 :=
  ⟨by decide, by decide, by decide,
    (input_event_is_timed_boost_request Framework.boot_input_boosted 3 53 512).2.1 (by decide),
    ((input_event_is_timed_boost_request Framework.boot_input_boosted 3 53 512).2.2.2.2
      (by decide) (by decide) (by decide)).1,
    ((input_event_is_timed_boost_request Framework.boot_input_boosted 3 53 512).2.2.2.2
      (by decide) (by decide) (by decide)).2.2.1⟩

/-- C14, as the claim states it, fails at `F = C`: in `cpu-boost_framework.c`, with
the policy available, `set_new_minfreq(1500000)` against the ceiling 1500000
writes the floor 1500000, not 1392000, and `set_new_minfreq(400000)` against the
ceiling 400000 writes the floor 400000 although the ceiling is at most 486000:
the test in the code is `minfreq > policy->user_policy.max`. -/
theorem framework_clamp_keeps_request_equal_to_ceiling :
    (Framework.boot 300000 1500000 0).policy_ready (Framework.boot 300000 1500000 0).lookups
      = true ∧
    (Framework.boot 300000 1500000 0).user_policy.max = 1500000 ∧
    (Framework.set_new_minfreq (Framework.boot 300000 1500000 0) 1500000).user_policy.min
      = 1500000 ∧
    (Framework.boot 300000 400000 0).user_policy.max = 400000 ∧
    (Framework.set_new_minfreq (Framework.boot 300000 400000 0) 400000).user_policy.min
      = 400000 := by
  refine ⟨rfl, rfl, ?_, rfl, ?_⟩
  · rw [Framework.set_new_minfreq_ready _ _ rfl]
    decide
  · rw [Framework.set_new_minfreq_ready _ _ rfl]
    decide

/-- C14, amended: in `cpu-boost_framework.c`, for every requested floor `F` and CPU0
ceiling `C` with the policy available at the lookup, `set_new_minfreq(F)` writes
the floor `F` when `F ≤ C`, writes `C - 108000` when `F > C` and `C > 486000`,
and writes nothing when `F > C` and `C ≤ 486000` (it then resets
`boost_duration_ms` and `boost_override`); the ceiling is never changed. -/
theorem framework_clamp_rule (s : Framework.State) (F : Nat)
    (hready : s.policy_ready s.lookups = true) :
    (F ≤ s.user_policy.max → (Framework.set_new_minfreq s F).user_policy.min = F) ∧
    (F > s.user_policy.max ∧ s.user_policy.max > 486000 →
      (Framework.set_new_minfreq s F).user_policy.min = s.user_policy.max - 108000) ∧
    (F > s.user_policy.max ∧ s.user_policy.max ≤ 486000 →
      (Framework.set_new_minfreq s F).user_policy = s.user_policy ∧
      (Framework.set_new_minfreq s F).boost_duration_ms = 0 ∧
      (Framework.set_new_minfreq s F).boost_override = 0) ∧
    (Framework.set_new_minfreq s F).user_policy.max = s.user_policy.max := by
  rw [Framework.set_new_minfreq_ready s F hready]
  refine ⟨?_, ?_, ?_, ?_⟩
  · intro h
    rw [if_neg (by omega)]
  · intro h
    rw [if_pos h.1, if_neg (by omega)]
    simp only [sub32]
    rw [if_pos (by omega)]
  · intro h
    rw [if_pos h.1, if_pos h.2]
    exact ⟨rfl, rfl, rfl⟩
  · split_ifs <;> rfl

/-- Witness of C14 (amended): floor requests 600000, 1600000 against the ceiling
1500000, and 600000 against the ceiling 400000. -/
theorem framework_clamp_rule_witness :
    (Framework.boot 300000 1500000 0).policy_ready (Framework.boot 300000 1500000 0).lookups
      = true ∧
    (Framework.set_new_minfreq (Framework.boot 300000 1500000 0) 600000).user_policy.min
      = 600000 ∧
    (Framework.set_new_minfreq (Framework.boot 300000 1500000 0) 1600000).user_policy.min
      = 1392000 ∧
    (Framework.set_new_minfreq (Framework.boot 300000 400000 0) 600000).user_policy
      = (Framework.boot 300000 400000 0).user_policy :=
  ⟨rfl,
    (framework_clamp_rule (Framework.boot 300000 1500000 0) 600000 rfl).1 (by decide),
    (framework_clamp_rule (Framework.boot 300000 1500000 0) 1600000 rfl).2.1 (by decide),
    ((framework_clamp_rule (Framework.boot 300000 400000 0) 600000 rfl).2.2.1 (by decide)).1⟩

/-- C15, as the claim states it, fails: with `cpu_boosted = 1`, the policy available
and `minfreq_inf = 900000` (a signal-terminated boost was preempted by the timed
one), the restore step writes the floor 900000, a boost frequency, and not the
snapshot `minfreq_orig = 300000`; and with `minfreq_inf = 0` and the snapshot
1400000 above the present ceiling 1000000 it writes 892000. -/
theorem framework_restore_writes_other_values :
    Framework.boot_timed_over_signal.cpu_boosted = 1 ∧
    Framework.boot_timed_over_signal.policy_ready Framework.boot_timed_over_signal.lookups
      = true ∧
    Framework.boot_timed_over_signal.minfreq_orig = 300000 ∧
    (Framework.cpu_boost_main Framework.boot_timed_over_signal).user_policy.min = 900000 ∧
    Framework.boot_orig_above_ceiling.cpu_boosted = 1 ∧
    Framework.boot_orig_above_ceiling.minfreq_inf = 0 ∧
    Framework.boot_orig_above_ceiling.minfreq_orig = 1400000 ∧
    (Framework.cpu_boost_main Framework.boot_orig_above_ceiling).user_policy.min = 892000 := by
  refine ⟨rfl, rfl, rfl, ?_, rfl, rfl, rfl, ?_⟩
  · simp [Framework.cpu_boost_main, Framework.restore_original_minfreq,
      Framework.boot_timed_over_signal, Framework.boot, Framework.set_new_minfreq_ready]
  · simp [Framework.cpu_boost_main, Framework.restore_original_minfreq,
      Framework.boot_orig_above_ceiling, Framework.boot, Framework.set_new_minfreq_ready, sub32]

/-- C15, amended: in `cpu-boost_framework.c`, for every state with `cpu_boosted`
nonzero and the CPU0 policy available at the lookup, the deferred step
`cpu_boost_main` performs `restore_original_minfreq`: it clears
`boost_duration_ms`, `cpu_boosted` and `boost_override`, queues no work and blocks
on nothing; as CPU0's floor it writes the snapshot `minfreq_orig` when
`minfreq_inf = 0` and `minfreq_orig` is at most the ceiling, and it writes
`minfreq_inf` when that is nonzero and at most the ceiling. -/
theorem framework_restore_step (s : Framework.State) (hb : s.cpu_boosted ≠ 0)
    (hready : s.policy_ready s.lookups = true) :
    Framework.cpu_boost_main s = Framework.restore_original_minfreq s ∧
    (Framework.cpu_boost_main s).boost_duration_ms = 0 ∧
    (Framework.cpu_boost_main s).cpu_boosted = 0 ∧
    (Framework.cpu_boost_main s).boost_override = 0 ∧
    (Framework.cpu_boost_main s).boost_work = s.boost_work ∧
    (Framework.cpu_boost_main s).waiting = s.waiting ∧
    (s.minfreq_inf = 0 → s.minfreq_orig ≤ s.user_policy.max →
      (Framework.cpu_boost_main s).user_policy.min = s.minfreq_orig) ∧
    (s.minfreq_inf ≠ 0 → s.minfreq_inf ≤ s.user_policy.max →
      (Framework.cpu_boost_main s).user_policy.min = s.minfreq_inf) := by
  have hmain : Framework.cpu_boost_main s = Framework.restore_original_minfreq s := by
    simp only [Framework.cpu_boost_main, hb, ne_eq, not_false_eq_true, if_true]
  refine ⟨hmain, ?_, ?_, ?_, ?_, ?_, ?_, ?_⟩
  · rw [hmain]; rfl
  · rw [hmain]; rfl
  · rw [hmain]; rfl
  · rw [hmain]
    simp only [Framework.restore_original_minfreq, Framework.set_new_minfreq_ready s _ hready]
    split_ifs <;> rfl
  · rw [hmain]
    simp only [Framework.restore_original_minfreq, Framework.set_new_minfreq_ready s _ hready]
    split_ifs <;> rfl
  · intro h0 hle
    rw [hmain]
    simp only [Framework.restore_original_minfreq, Framework.set_new_minfreq_ready s _ hready,
      h0, ne_eq, not_true_eq_false, if_false]
    rw [if_neg (by omega)]
  · intro h0 hle
    rw [hmain]
    simp only [Framework.restore_original_minfreq, Framework.set_new_minfreq_ready s _ hready,
      h0, ne_eq, not_false_eq_true, if_true]
    rw [if_neg (by omega)]

/-- Witness of C15 (amended): the restore step at the end of a timed boost to 900000
with the snapshot 300000 and no signal-terminated boost recorded. -/
theorem framework_restore_step_witness :
    Framework.boot_input_boosted.cpu_boosted ≠ 0 ∧
    Framework.boot_input_boosted.policy_ready Framework.boot_input_boosted.lookups = true ∧
    Framework.boot_input_boosted.minfreq_inf = 0 ∧
    Framework.boot_input_boosted.user_policy.min = 900000 ∧
    (Framework.cpu_boost_main Framework.boot_input_boosted).user_policy.min = 300000 ∧
    (Framework.cpu_boost_main Framework.boot_input_boosted).cpu_boosted = 0 :=
  ⟨by decide, rfl, rfl, rfl,
    (framework_restore_step Framework.boot_input_boosted (by decide) rfl).2.2.2.2.2.2.1
      rfl (by decide),
    (framework_restore_step Framework.boot_input_boosted (by decide) rfl).2.2.1⟩

/-- C16, as the claim states it, fails: in the idle one-core state, and in the state
where a timed boost is active, `cpu_unboost()` is not a no-op: it releases the
completion `cpu_boost_no_timeout` (its counter goes from 0 to 1); the same holds
in `cpu-boost_framework.c`. -/
theorem unboost_with_nothing_pending_releases_completion :
    (CpuBoost.one_core.init_done ≠ 0 ∧ CpuBoost.one_core.enabled ≠ 0) ∧
    (CpuBoost.one_core.cpu_boosted = 0 ∧ CpuBoost.one_core.boost_work = none ∧
      CpuBoost.one_core.waiting = false) ∧
    CpuBoost.one_core.cpu_boost_no_timeout = 0 ∧
    (CpuBoost.cpu_unboost CpuBoost.one_core).cpu_boost_no_timeout = 1 ∧
    (CpuBoost.one_core_boosted.cpu_boosted = 1 ∧
      CpuBoost.one_core_boosted.boost_duration_ms = 200 ∧
      CpuBoost.one_core_boosted.waiting = false) ∧
    CpuBoost.one_core_boosted.cpu_boost_no_timeout = 0 ∧
    (CpuBoost.cpu_unboost CpuBoost.one_core_boosted).cpu_boost_no_timeout = 1 ∧
    (Framework.boot 300000 1500000 0).cpu_boost_no_timeout = 0 ∧
    (Framework.cpu_unboost (Framework.boot 300000 1500000 0)).cpu_boost_no_timeout = 1 := by
  refine ⟨by decide, by decide, by decide, by decide, by decide, by decide, by decide,
    by decide, by decide⟩

/-- C16, amended: in every initialised, enabled state `cpu_unboost()` records one
release of `cpu_boost_no_timeout` (and, in `cpu-boost_framework.c`, clears
`minfreq_inf`) and leaves every other component unchanged, whether or not a
signal-terminated cycle is pending; no floor changes, and a later `cpu_boost`
gives the same state as it would without the `cpu_unboost`, because it re-arms
the completion. -/
theorem unboost_only_releases_completion (s : CpuBoost.State) (t : Framework.State)
    (freq : Nat)
    (hs : s.init_done ≠ 0 ∧ s.enabled ≠ 0) (ht : t.init_done ≠ 0 ∧ t.enable ≠ 0) :
    CpuBoost.cpu_unboost s = { s with cpu_boost_no_timeout := s.cpu_boost_no_timeout + 1 } ∧
    Framework.cpu_unboost t =
      { t with cpu_boost_no_timeout := t.cpu_boost_no_timeout + 1, minfreq_inf := 0 } ∧
    (∀ cpu, CpuBoost.floor (CpuBoost.cpu_unboost s) cpu = CpuBoost.floor s cpu) ∧
    (Framework.cpu_unboost t).user_policy = t.user_policy ∧
    CpuBoost.cpu_boost (CpuBoost.cpu_unboost s) freq = CpuBoost.cpu_boost s freq ∧
    Framework.cpu_boost (Framework.cpu_unboost t) freq = Framework.cpu_boost t freq := by
  obtain ⟨hs1, hs2⟩ := hs
  obtain ⟨ht1, ht2⟩ := ht
  have e1 : CpuBoost.cpu_unboost s
      = { s with cpu_boost_no_timeout := s.cpu_boost_no_timeout + 1 } := by
    simp [CpuBoost.cpu_unboost, CpuBoost.complete, hs1, hs2]
  have e2 : Framework.cpu_unboost t =
      { t with cpu_boost_no_timeout := t.cpu_boost_no_timeout + 1, minfreq_inf := 0 } := by
    simp [Framework.cpu_unboost, Framework.complete, ht1, ht2]
  refine ⟨e1, e2, ?_, ?_, ?_, ?_⟩
  · intro cpu
    rw [e1]
    rfl
  · rw [e2]
  · rw [e1]
    simp only [CpuBoost.cpu_boost, CpuBoost.schedule_eq, CpuBoost.init_completion,
      CpuBoost.cancel_delayed_work, hs1, hs2, ne_eq, not_false_eq_true, and_self, if_true]
    split_ifs <;> rfl
  · rw [e2]
    simp only [Framework.cpu_boost, Framework.fw_schedule_eq, Framework.init_completion,
      Framework.cancel_delayed_work, ht1, ht2, ne_eq, not_false_eq_true, and_self, if_true]
    split_ifs <;> rfl

/-- Witness of C16 (amended): `cpu_unboost()` during the active timed boost of
`one_core_boosted` and in the idle framework state. -/
theorem unboost_only_releases_completion_witness :
    (CpuBoost.one_core_boosted.init_done ≠ 0 ∧ CpuBoost.one_core_boosted.enabled ≠ 0) ∧
    ((Framework.boot 300000 1500000 0).init_done ≠ 0 ∧
      (Framework.boot 300000 1500000 0).enable ≠ 0) ∧
    (∀ cpu, CpuBoost.floor (CpuBoost.cpu_unboost CpuBoost.one_core_boosted) cpu
      = CpuBoost.floor CpuBoost.one_core_boosted cpu) ∧
    Framework.cpu_boost (Framework.cpu_unboost (Framework.boot 300000 1500000 0)) 900
      = Framework.cpu_boost (Framework.boot 300000 1500000 0) 900 :=
  ⟨by decide, by decide,
    (unboost_only_releases_completion CpuBoost.one_core_boosted
      (Framework.boot 300000 1500000 0) 900 (by decide) (by decide)).2.2.1,
    (unboost_only_releases_completion CpuBoost.one_core_boosted
      (Framework.boot 300000 1500000 0) 900 (by decide) (by decide)).2.2.2.2.2⟩

namespace CpuBoost

/-- An online core that the loop of `cpu_boost_main` reaches and that does not take
the abort branch holds, after the apply step, the value `minfreq` computed for it. -/
theorem reached_core_floor (s s1 : State) (cpu : Nat) (pre post : List Nat)
    (hb : s.cpu_boosted = 0) (hs1 : snapshot_unless_override s = some s1)
    (hF : s.boost_freq_khz ≠ 0) (hon : s.cpu_online = pre ++ cpu :: post)
    (hpol : ∀ c, c ∈ s.cpu_online → s.policy c ≠ none)
    (hpre : ∀ c, c ∈ pre → aborts s1 c = false) (hcpu : aborts s1 cpu = false) :
    ∃ s2, cpu_boost_main s = some s2 ∧ floor s2 cpu = some (new_minfreq s1 cpu) := by
  have hfr := snapshot_unless_override_frame s s1 hs1
  have hp : s1.policy = s.policy := by rw [hfr]
  have hf : s1.boost_freq_khz = s.boost_freq_khz := by rw [hfr]
  have ho : s1.cpu_online = s.cpu_online := by rw [hfr]
  have hF1 : s1.boost_freq_khz ≠ 0 := by rw [hf]; exact hF
  have hpol1 : ∀ c, c ∈ s1.cpu_online → s1.policy c ≠ none := by rw [ho, hp]; exact hpol
  obtain ⟨s2, hs2, hpol2, -, -, -, -⟩ := apply_loop_outcome s1 hF1 hpol1
  have hpreP : ∀ a, a ∈ pre → (!aborts s1 a) = true := by
    intro a ha
    rw [hpre a ha]
    rfl
  have hc : (!aborts s1 cpu) = true := by
    rw [hcpu]
    rfl
  have hmem : cpu ∈ s1.cpu_online.takeWhile (fun c => !aborts s1 c) := by
    rw [ho, hon, List.takeWhile_append_of_pos hpreP,
      @List.takeWhile_cons_of_pos Nat (fun c => !aborts s1 c) cpu post hc]
    exact List.mem_append_right _ (List.mem_cons_self _ _)
  obtain ⟨p, hpc⟩ := Option.ne_none_iff_exists'.mp
    (hpol cpu (by rw [hon]; exact List.mem_append_right _ (List.mem_cons_self cpu post)))
  refine ⟨s2, ?_, ?_⟩
  · simp only [cpu_boost_main, hb, ne_eq, not_true_eq_false, if_false, hs1, Option.some_bind,
      hs2]
  · unfold floor
    rw [hpol2, written_mem _ _ _ cpu p hmem (by rw [hp]; exact hpc)]
    rfl

end CpuBoost

/-- C17. Clamp bounds in `cpu_boost.c`: in the apply step of `cpu_boost_main` with a
nonzero target `F = boost_freq_khz`, whenever the step writes a floor for an
online core (the loop reaches the core and the core does not abort), with `C`
the ceiling `orig_policy[cpu].max` the loop reads, the written floor `f` is
strictly below `C`, at most `F` and positive; it is `F` when `F < C`, and when
`F ≥ C` it is `C - 108000`, computed only with `C > 486000`, so that the
unsigned subtraction does not wrap. -/
theorem written_floor_bounds (s s1 : CpuBoost.State) (cpu : Nat) (pre post : List Nat)
    (hb : s.cpu_boosted = 0)
    (hs1 : CpuBoost.snapshot_unless_override s = some s1)
    (hF : s.boost_freq_khz ≠ 0)
    (hon : s.cpu_online = pre ++ cpu :: post)
    (hpol : ∀ c, c ∈ s.cpu_online → s.policy c ≠ none)
    (hpre : ∀ c, c ∈ pre →
      ¬ (s.boost_freq_khz ≥ (s1.orig_policy c).max ∧ (s1.orig_policy c).max ≤ 486000))
    (hcpu : ¬ (s.boost_freq_khz ≥ (s1.orig_policy cpu).max ∧
      (s1.orig_policy cpu).max ≤ 486000)) :
    ∃ s2 f, CpuBoost.cpu_boost_main s = some s2 ∧ CpuBoost.floor s2 cpu = some f ∧
      f < (s1.orig_policy cpu).max ∧ f ≤ s.boost_freq_khz ∧ 0 < f ∧
      (s.boost_freq_khz < (s1.orig_policy cpu).max → f = s.boost_freq_khz) ∧
      (s.boost_freq_khz ≥ (s1.orig_policy cpu).max →
        (s1.orig_policy cpu).max > 486000 ∧ f = (s1.orig_policy cpu).max - 108000 ∧
        sub32 (s1.orig_policy cpu).max 108000 = (s1.orig_policy cpu).max - 108000 ∧
        f + 108000 = (s1.orig_policy cpu).max) := by
  have hfr := CpuBoost.snapshot_unless_override_frame s s1 hs1
  have hf : s1.boost_freq_khz = s.boost_freq_khz := by rw [hfr]
  have hpre' : ∀ c, c ∈ pre → CpuBoost.aborts s1 c = false := by
    intro c hc
    simp only [CpuBoost.aborts, hf, decide_eq_false_iff_not]
    exact hpre c hc
  have hcpu' : CpuBoost.aborts s1 cpu = false := by
    simp only [CpuBoost.aborts, hf, decide_eq_false_iff_not]
    exact hcpu
  obtain ⟨s2, hs2, hfl⟩ :=
    CpuBoost.reached_core_floor s s1 cpu pre post hb hs1 hF hon hpol hpre' hcpu'
  refine ⟨s2, CpuBoost.new_minfreq s1 cpu, hs2, hfl, ?_⟩
  simp only [CpuBoost.new_minfreq, hf]
  by_cases hge : s.boost_freq_khz ≥ (s1.orig_policy cpu).max
  · have hgt : (s1.orig_policy cpu).max > 486000 := by
      by_contra hle
      exact hcpu ⟨hge, by omega⟩
    rw [if_pos hge, CpuBoost.sub32_of_le _ _ (by omega)]
    refine ⟨by omega, by omega, by omega, fun h => by omega, fun _ => ⟨hgt, rfl, rfl, ?_⟩⟩
    omega
  · rw [if_neg hge]
    refine ⟨by omega, by omega, by omega, fun _ => rfl, fun h => absurd h hge⟩

/-- Witness of C17: ceiling 500000 and request 600000 kHz on core 0: the written
floor is 392000, below the ceiling and below the request. -/
theorem written_floor_bounds_witness :
    CpuBoost.capped_second_core_requested.cpu_boosted = 0 ∧
    CpuBoost.capped_second_core_requested.boost_freq_khz = 600000 ∧
    (CpuBoost.capped_second_core_snapshot.orig_policy 0).max = 500000 ∧
    ∃ s2 f, CpuBoost.cpu_boost_main CpuBoost.capped_second_core_requested = some s2 ∧
      CpuBoost.floor s2 0 = some f ∧ f < 500000 ∧ f ≤ 600000 ∧ 0 < f ∧ f = 392000 := by
  have hs1 : CpuBoost.snapshot_unless_override CpuBoost.capped_second_core_requested
      = some CpuBoost.capped_second_core_snapshot :=
    CpuBoost.save_loop_eq [0, 1] CpuBoost.capped_second_core_requested (by decide)
  obtain ⟨s2, f, h, hfl, h1, h2, h3, -, h5⟩ := written_floor_bounds
    CpuBoost.capped_second_core_requested CpuBoost.capped_second_core_snapshot 0 [] [1]
    rfl hs1 (by decide) rfl (by decide) (by decide) (by decide)
  exact ⟨rfl, rfl, rfl, s2, f, h, hfl, h1, h2, h3, (h5 (by decide)).2.1⟩

/-- C18. MHz to kHz conversion in `cpu_boost.c`: in an initialised, enabled state
`cpu_boost_timeout` and `cpu_boost` record
`boost_freq_khz = (freq_mhz * 1000) mod 2^32`; for `freq_mhz ≤ 4294967` this is
`freq_mhz * 1000` exactly, and nonzero exactly when `freq_mhz` is nonzero; for
larger `freq_mhz` the recorded target differs from `freq_mhz * 1000`:
`freq_mhz = 4294968` records 704 and `freq_mhz = 536870912` records 0. -/
theorem mhz_to_khz_conversion (s : CpuBoost.State) (freq_mhz duration_ms : Nat)
    (hs : s.init_done ≠ 0 ∧ s.enabled ≠ 0) :
    (CpuBoost.cpu_boost_timeout s freq_mhz duration_ms).boost_freq_khz
      = (freq_mhz * 1000) % 4294967296 ∧
    (CpuBoost.cpu_boost s freq_mhz).boost_freq_khz = (freq_mhz * 1000) % 4294967296 ∧
    (freq_mhz ≤ 4294967 →
      (CpuBoost.cpu_boost_timeout s freq_mhz duration_ms).boost_freq_khz = freq_mhz * 1000 ∧
      (CpuBoost.cpu_boost s freq_mhz).boost_freq_khz = freq_mhz * 1000 ∧
      ((CpuBoost.cpu_boost_timeout s freq_mhz duration_ms).boost_freq_khz ≠ 0 ↔
        freq_mhz ≠ 0)) ∧
    (freq_mhz > 4294967 →
      (CpuBoost.cpu_boost_timeout s freq_mhz duration_ms).boost_freq_khz ≠ freq_mhz * 1000 ∧
      (CpuBoost.cpu_boost s freq_mhz).boost_freq_khz ≠ freq_mhz * 1000) ∧
    (CpuBoost.cpu_boost_timeout s 4294968 duration_ms).boost_freq_khz = 704 ∧
    (CpuBoost.cpu_boost s 536870912).boost_freq_khz = 0 := by
  obtain ⟨hs1, hs2⟩ := hs
  have ht : ∀ f d, (CpuBoost.cpu_boost_timeout s f d).boost_freq_khz
      = (f * 1000) % 4294967296 := by
    intro f d
    simp only [CpuBoost.cpu_boost_timeout, CpuBoost.schedule_eq, CpuBoost.cancel_delayed_work,
      hs1, hs2, ne_eq, not_false_eq_true, and_self, if_true]
  have hbst : ∀ f, (CpuBoost.cpu_boost s f).boost_freq_khz = (f * 1000) % 4294967296 := by
    intro f
    simp only [CpuBoost.cpu_boost, CpuBoost.schedule_eq, CpuBoost.cancel_delayed_work,
      CpuBoost.init_completion, hs1, hs2, ne_eq, not_false_eq_true, and_self, if_true]
  refine ⟨ht _ _, hbst _, ?_, ?_, ?_, ?_⟩
  · intro hle
    have hmod : (freq_mhz * 1000) % 4294967296 = freq_mhz * 1000 :=
      Nat.mod_eq_of_lt (by omega)
    rw [ht, hbst, hmod]
    refine ⟨rfl, rfl, ?_⟩
    constructor <;> intro h <;> omega
  · intro hgt
    have hlt : (freq_mhz * 1000) % 4294967296 < 4294967296 := Nat.mod_lt _ (by decide)
    rw [ht, hbst]
    constructor <;> omega
  · rw [ht]
  · rw [hbst]

/-- Witness of C18: `cpu_boost_timeout(800, 200)` and `cpu_boost(800)` in the one-core
state record 800000 kHz. -/
theorem mhz_to_khz_conversion_witness :
    (CpuBoost.one_core.init_done ≠ 0 ∧ CpuBoost.one_core.enabled ≠ 0) ∧
    (CpuBoost.cpu_boost_timeout CpuBoost.one_core 800 200).boost_freq_khz = 800 * 1000 ∧
    (CpuBoost.cpu_boost CpuBoost.one_core 800).boost_freq_khz = 800 * 1000 ∧
    (CpuBoost.cpu_boost_timeout CpuBoost.one_core 4294968 200).boost_freq_khz = 704 :=
  ⟨by decide,
    ((mhz_to_khz_conversion CpuBoost.one_core 800 200 (by decide)).2.2.1 (by decide)).1,
    ((mhz_to_khz_conversion CpuBoost.one_core 800 200 (by decide)).2.2.1 (by decide)).2.1,
    (mhz_to_khz_conversion CpuBoost.one_core 800 200 (by decide)).2.2.2.2.1⟩

namespace CpuBoost

theorem set_new_minfreq_enabled (e : Nat) (s : State) (v c : Nat) :
    set_new_minfreq (with_enabled e s) v c = (set_new_minfreq s v c).map (with_enabled e) := by
  simp only [set_new_minfreq, cpufreq_cpu_get, with_enabled]
  cases s.policy c with
  | some p => rfl
  | none =>
    cases s.policy 0 with
    | some p0 => rfl
    | none => rfl

theorem restore_loop_enabled (e : Nat) (l : List Nat) : ∀ (s : State),
    restore_original_minfreq_loop l (with_enabled e s)
      = (restore_original_minfreq_loop l s).map (with_enabled e) := by
  induction l with
  | nil => intro s; rfl
  | cons c rest ih =>
    intro s
    have hv : ((with_enabled e s).orig_policy c).min = (s.orig_policy c).min := rfl
    rw [restore_original_minfreq_loop, restore_original_minfreq_loop, hv,
      set_new_minfreq_enabled]
    cases set_new_minfreq s (s.orig_policy c).min c with
    | none => rfl
    | some s1 => exact ih s1

theorem save_loop_enabled (e : Nat) (l : List Nat) : ∀ (s : State),
    save_original_freq_limits_loop l (with_enabled e s)
      = (save_original_freq_limits_loop l s).map (with_enabled e) := by
  induction l with
  | nil => intro s; rfl
  | cons c rest ih =>
    intro s
    have hr : retained_cpu_policy (with_enabled e s) c = retained_cpu_policy s c := rfl
    have hg : cpufreq_cpu_get (with_enabled e s) 0 = cpufreq_cpu_get s 0 := rfl
    rw [save_original_freq_limits_loop, save_original_freq_limits_loop, hr, hg]
    split_ifs
    · exact ih { s with orig_policy := (setAt s.orig_policy c
        ⟨get_retained_min_cpu_freq s c, get_retained_max_cpu_freq s c,
          (s.orig_policy c).governor⟩) }
    · cases cpufreq_cpu_get s 0 with
      | none => rfl
      | some p0 =>
        exact ih { s with orig_policy := (setAt s.orig_policy c
          ⟨p0.min, p0.max, (s.orig_policy c).governor⟩) }

theorem boost_loop_enabled (e : Nat) (l : List Nat) : ∀ (s : State),
    boost_online_cpus l (with_enabled e s)
      = (boost_online_cpus l s).map (exit_with_enabled e) := by
  induction l with
  | nil => intro s; rfl
  | cons c rest ih =>
    intro s
    have hf : (with_enabled e s).boost_freq_khz = s.boost_freq_khz := rfl
    have hm : ((with_enabled e s).orig_policy c).max = (s.orig_policy c).max := rfl
    rw [boost_online_cpus, boost_online_cpus, hf, hm, set_new_minfreq_enabled,
      set_new_minfreq_enabled]
    split_ifs
    · rfl
    · cases set_new_minfreq s (sub32 (s.orig_policy c).max 108000) c with
      | none => rfl
      | some s1 => exact ih s1
    · cases set_new_minfreq s s.boost_freq_khz c with
      | none => rfl
      | some s1 => exact ih s1
    · exact ih s

theorem cpu_boost_main_tail_enabled (e : Nat) (s : State) :
    cpu_boost_main_tail (with_enabled e s) = with_enabled e (cpu_boost_main_tail s) := by
  simp only [cpu_boost_main_tail_eq, with_enabled]
  split_ifs <;> rfl

theorem after_loop_enabled (e : Nat) (r : LoopExit) :
    after_loop (exit_with_enabled e r) = with_enabled e (after_loop r) := by
  cases r with
  | finished s => exact cpu_boost_main_tail_enabled e s
  | returned s => rfl

/-- The deferred step commutes with a change of the enable flag. -/
theorem cpu_boost_main_enabled (e : Nat) (s : State) :
    cpu_boost_main (with_enabled e s) = (cpu_boost_main s).map (with_enabled e) := by
  have hb : (with_enabled e s).cpu_boosted = s.cpu_boosted := rfl
  have ho : (with_enabled e s).boost_override = s.boost_override := rfl
  have hp : (with_enabled e s).cpu_possible = s.cpu_possible := rfl
  simp only [cpu_boost_main, hb]
  split_ifs with h
  · simp only [restore_original_minfreq, hp, restore_loop_enabled]
    cases restore_original_minfreq_loop s.cpu_possible s with
    | none => rfl
    | some s1 => rfl
  · have hsnap : snapshot_unless_override (with_enabled e s)
        = (snapshot_unless_override s).map (with_enabled e) := by
      simp only [snapshot_unless_override, ho, save_original_freq_limits, hp]
      split_ifs
      · exact save_loop_enabled e _ s
      · rfl
    rw [hsnap]
    cases snapshot_unless_override s with
    | none => rfl
    | some s1 =>
      have hon : (with_enabled e s1).cpu_online = s1.cpu_online := rfl
      simp only [Option.map_some', Option.some_bind, hon, boost_loop_enabled]
      cases boost_online_cpus s1.cpu_online s1 with
      | none => rfl
      | some r => simp only [Option.map_some', after_loop_enabled]

end CpuBoost

/-- C19. The deferred step ignores the enable gate: for a state `s` of `cpu_boost.c`
and the state that differs from it only in the enable flag (set to `e`),
`cpu_boost_main` fails on both or returns on both, and the two results agree in
every floor and ceiling, in `cpu_boosted`, `boost_override`, `boost_duration_ms`,
the target, the snapshot, the queued work, the completion and the waiting flag;
they differ only in the enable flag.  In particular, when `cpu_boost_shutdown`
is called in an initialised state during an active timed boost (expiry queued,
every possible core having a policy), the pending expiry step still restores
every possible core to its snapshot floor and clears `cpu_boosted`. -/
theorem deferred_step_ignores_enable_flag (s : CpuBoost.State) (e : Nat) :
    CpuBoost.cpu_boost_main (CpuBoost.with_enabled e s)
      = (CpuBoost.cpu_boost_main s).map (CpuBoost.with_enabled e) ∧
    (CpuBoost.cpu_boost_main s = none →
      CpuBoost.cpu_boost_main (CpuBoost.with_enabled e s) = none) ∧
    (∀ r, CpuBoost.cpu_boost_main s = some r →
      ∃ r', CpuBoost.cpu_boost_main (CpuBoost.with_enabled e s) = some r' ∧
        r'.policy = r.policy ∧ r'.cpu_boosted = r.cpu_boosted ∧
        r'.boost_override = r.boost_override ∧
        r'.boost_duration_ms = r.boost_duration_ms ∧ r'.boost_freq_khz = r.boost_freq_khz ∧
        r'.orig_policy = r.orig_policy ∧ r'.boost_work = r.boost_work ∧
        r'.cpu_boost_no_timeout = r.cpu_boost_no_timeout ∧ r'.waiting = r.waiting ∧
        r'.enabled = e) ∧
    (s.init_done ≠ 0 → s.cpu_boosted ≠ 0 → s.boost_work ≠ none →
      (∀ c, c ∈ s.cpu_possible → s.policy c ≠ none) →
      ∃ r, CpuBoost.run_boost_work (CpuBoost.cpu_boost_shutdown s) = some r ∧
        (∀ c, c ∈ s.cpu_possible → CpuBoost.floor r c = some (s.orig_policy c).min) ∧
        r.cpu_boosted = 0 ∧ r.boost_override = 0 ∧ r.boost_duration_ms = 0 ∧
        r.enabled = 0) := by
  have hmain := CpuBoost.cpu_boost_main_enabled e s
  refine ⟨hmain, ?_, ?_, ?_⟩
  · intro h
    rw [hmain, h]
    rfl
  · intro r h
    refine ⟨CpuBoost.with_enabled e r, ?_, rfl, rfl, rfl, rfl, rfl, rfl, rfl, rfl, rfl, rfl⟩
    rw [hmain, h]
    rfl
  · intro hinit hb hw hpol
    obtain ⟨d, hd⟩ := Option.ne_none_iff_exists'.mp hw
    have hrun : CpuBoost.run_boost_work (CpuBoost.cpu_boost_shutdown s)
        = CpuBoost.cpu_boost_main { s with enabled := 0, boost_work := none } := by
      simp only [CpuBoost.run_boost_work, CpuBoost.cpu_boost_shutdown, hinit, ne_eq,
        not_false_eq_true, if_true, hd]
    rw [hrun, CpuBoost.restore_step { s with enabled := 0, boost_work := none } hb hpol]
    refine ⟨_, rfl, ?_, rfl, rfl, rfl, rfl⟩
    intro c hc
    obtain ⟨p, hp⟩ := Option.ne_none_iff_exists'.mp (hpol c hc)
    simp only [CpuBoost.floor, CpuBoost.floor_written, hc, if_true, hp, Option.map_some']

/-- Witness of C19: `cpu_boost_shutdown()` during the active timed boost of
`one_core_boosted`; the pending expiry step restores the floor 300000. -/
theorem deferred_step_ignores_enable_flag_witness :
    CpuBoost.one_core_boosted.init_done ≠ 0 ∧ CpuBoost.one_core_boosted.cpu_boosted ≠ 0 ∧
    CpuBoost.one_core_boosted.boost_work ≠ none ∧
    CpuBoost.floor CpuBoost.one_core_boosted 0 = some 800000 ∧
    ∃ r, CpuBoost.run_boost_work (CpuBoost.cpu_boost_shutdown CpuBoost.one_core_boosted)
        = some r ∧
      CpuBoost.floor r 0 = some 300000 ∧ r.cpu_boosted = 0 ∧ r.enabled = 0 := by
  obtain ⟨r, hr, hfl, hb, -, -, he⟩ :=
    (deferred_step_ignores_enable_flag CpuBoost.one_core_boosted 0).2.2.2
      (by decide) (by decide) (by decide) (by decide)
  exact ⟨by decide, by decide, by decide, by decide, r, hr, hfl 0 (by decide), hb, he⟩
